import Mathlib

/-
Verification of the content-extractor core against its specification.

The definitions below are a shallow embedding of the TypeScript source:
  - RateLimiter                (src/src/adapters/wikipedia.ts, class RateLimiter)
  - ParagraphDetector          (src/src/detectors/paragraph-detector.ts)
  - WikipediaAdapter           (src/src/adapters/wikipedia.ts)
  - RedditAdapter              (src/src/adapters/reddit.ts)
  - SubstackAdapter            (src/unnamed/part_000)
  - adapter registry           (src/unnamed/part_000: getSiteAdapter, registerAdapter)
  - ContentExtractorService    (src/src/adapters/wikipedia.ts)

Times are modelled as Int milliseconds.  JavaScript Map objects become
association lists with in-place replacement on set.  Stateful methods become
explicit state-passing functions; methods that can throw return Except.
DOM-derived element attributes (text content, bounds, tag names) are fields
of element records, since DOM construction is outside the embedded core.
-/

namespace ContentExtractor

/-! ## RateLimiter

Source, src/src/adapters/wikipedia.ts lines 94-124:
the private field requests is a Map from key to a list of timestamps.
-/

structure RateLimiterCfg where
  maxRequests : Nat
  windowMs : Int
deriving DecidableEq, Repr

/-- The constructor defaults: maxRequests = 10, windowMs = 60000.
The ContentExtractorService always constructs its limiter with these defaults. -/
def defaultRateLimiter : RateLimiterCfg :=
  { maxRequests := 10, windowMs := 60000 }

/-- The Map from key to recorded timestamps, as an association list. -/
abbrev LimiterState := List (String × List Int)

/-- this.requests.get(key) || [] -/
def lookupTimes : LimiterState → String → List Int
  | [], _ => []
  | e :: rest, key => if e.1 = key then e.2 else lookupTimes rest key

/-- this.requests.set(key, ts): a JavaScript Map keeps the position of an
existing key and appends a fresh key. -/
def setTimes : LimiterState → String → List Int → LimiterState
  | [], key, ts => [(key, ts)]
  | e :: rest, key, ts =>
      if e.1 = key then (key, ts) :: rest else e :: setTimes rest key ts

/-- requests.filter((time) => now - time < this.windowMs) -/
def validRequests (cfg : RateLimiterCfg) (now : Int) (ts : List Int) : List Int :=
  ts.filter (fun t => now - t < cfg.windowMs)

/-- RateLimiter.checkLimit (lines 104-116).  Returns the boolean result and
the state after the call; on the false branch the method returns before any
write, so the state is unchanged there. -/
def checkLimit (cfg : RateLimiterCfg) (now : Int) (key : String) (st : LimiterState) :
    Bool × LimiterState :=
  let valid := validRequests cfg now (lookupTimes st key)
  if cfg.maxRequests ≤ valid.length then (false, st)
  else (true, setTimes st key (valid ++ [now]))

/-- RateLimiter.getRemainingRequests (lines 118-123).
Math.max(0, maxRequests - validRequests.length) is truncated Nat subtraction.
The method body contains no call to this.requests.set, so the state component
of the result is the input state. -/
def getRemainingRequests (cfg : RateLimiterCfg) (now : Int) (key : String)
    (st : LimiterState) : Nat × LimiterState :=
  (cfg.maxRequests - (validRequests cfg now (lookupTimes st key)).length, st)

/-- Iterated checkLimit calls at the given sequence of call times,
collecting each boolean result. -/
def runChecks (cfg : RateLimiterCfg) (key : String) :
    List Int → LimiterState → List Bool × LimiterState
  | [], st => ([], st)
  | t :: rest, st =>
      ((checkLimit cfg t key st).1 ::
          (runChecks cfg key rest (checkLimit cfg t key st).2).1,
        (runChecks cfg key rest (checkLimit cfg t key st).2).2)

/-! ## Shared data model: layout rectangles and paragraphs -/

/-- DOMRect: x, y, width, height with derived left, top, right, bottom. -/
structure Rect where
  x : Int
  y : Int
  width : Int
  height : Int
deriving DecidableEq, Repr

def Rect.left (r : Rect) : Int := r.x

def Rect.top (r : Rect) : Int := r.y

def Rect.right (r : Rect) : Int := r.x + r.width

def Rect.bottom (r : Rect) : Int := r.y + r.height

/-- The Paragraph record of src/src/types.ts.  The optional analysis fields
(sentiment, keywords, entities, readability) are never written by the
embedded operations and are elided. -/
structure Paragraph where
  id : String
  text : String
  html : String
  index : Nat
  element : String
  bounds : Rect
  isQuote : Bool
  isCode : Bool
  isHeading : Bool
  headingLevel : Option Nat
  importance : Rat
deriving DecidableEq, Repr

/-! ## JavaScript string splitting

cleanText.split(/\s+/) splits on maximal whitespace runs; splitting the
empty string yields the one-element list containing the empty string, and a
leading or trailing whitespace run contributes an empty piece.
-/

/-- One step of the split on maximal whitespace runs: the state is the
completed pieces (reversed), the current piece (reversed), and whether the
previous character was whitespace (so that a continuing run emits nothing). -/
def jsSplitWsStep : List String × List Char × Bool → Char → List String × List Char × Bool
  | (done, cur, inRun), c =>
      if c.isWhitespace then
        if inRun then (done, [], true)
        else (String.mk cur.reverse :: done, [], true)
      else (done, c :: cur, false)

/-- s.split(/\s+/) -/
def jsSplitWs (s : String) : List String :=
  let r := s.data.foldl jsSplitWsStep ([], [], false)
  (String.mk r.2.1.reverse :: r.1).reverse

/-- cleanText.split(/\s+/).length -/
def jsWordCount (s : String) : Nat := (jsSplitWs s).length

/-- Math.ceil(wordCount / 200), on natural numbers. -/
def readingTimeOf (wordCount : Nat) : Nat := (wordCount + 199) / 200

/-! ## ParagraphDetector (src/src/detectors/paragraph-detector.ts) -/

namespace ParagraphDetector

/-- The /[.!?]$/ test on a string. -/
def endsWithSentencePunct (s : String) : Bool :=
  match s.data.getLast? with
  | some c => c == '.' || c == '!' || c == '?'
  | none => false

/-- The /^[a-z]/ test on a string (ASCII lowercase letter). -/
def startsWithLowercase (s : String) : Bool :=
  match s.data.head? with
  | some c => c.isLower
  | none => false

/-- ParagraphDetector.shouldMerge (lines 284-295). -/
def shouldMerge (p1 p2 : Paragraph) : Bool :=
  if p1.isHeading || p2.isHeading then false
  else if p1.isQuote || p2.isQuote || p1.isCode || p2.isCode then false
  else if 50 < p2.bounds.top - (p1.bounds.top + p1.bounds.height) then false
  else !endsWithSentencePunct p1.text.trim && startsWithLowercase p2.text.trim

/-- ParagraphDetector.mergeBounds (lines 297-304): the constructed DOMRect is
new DOMRect(min of lefts, top of the first, max of rights minus min of lefts,
bottom of the second minus top of the first). -/
def mergeBounds (b1 b2 : Rect) : Rect :=
  { x := min b1.left b2.left,
    y := b1.top,
    width := max b1.right b2.right - min b1.left b2.left,
    height := b2.bottom - b1.top }

/-- The mutation performed on the running paragraph when p is merged into c:
text and html are concatenated with a newline and the bounds take the
merged rectangle. -/
def mergeInto (c p : Paragraph) : Paragraph :=
  { c with
      text := c.text ++ "\n" ++ p.text,
      html := c.html ++ "\n" ++ p.html,
      bounds := mergeBounds c.bounds p.bounds }

/-- The forEach loop of postProcess (lines 259-274), with the running
current paragraph made explicit. -/
def mergeLoop : Option Paragraph → List Paragraph → List Paragraph
  | none, [] => []
  | some c, [] => [c]
  | none, p :: ps => mergeLoop (some p) ps
  | some c, p :: ps =>
      if shouldMerge c p then mergeLoop (some (mergeInto c p)) ps
      else c :: mergeLoop (some p) ps

/-- The reindexing pass of postProcess (lines 276-279): position i receives
index i and id p-i. -/
def reindexFrom (i : Nat) : List Paragraph → List Paragraph
  | [] => []
  | p :: ps => { p with index := i, id := "p-" ++ toString i } :: reindexFrom (i + 1) ps

/-- ParagraphDetector.postProcess (lines 259-282). -/
def postProcess (paragraphs : List Paragraph) : List Paragraph :=
  reindexFrom 0 (mergeLoop none paragraphs)

/-- A candidate element of the detect loop.  text is the trimmed text after
script/style removal, selectorPath the computed structural selector, score
the value scoreParagraph would compute; these are functions of the DOM and
are carried as element attributes here. -/
structure Elem where
  text : String
  html : String
  selectorPath : String
  bounds : Rect
  isQuote : Bool
  isCode : Bool
  isHeading : Bool
  headingLevel : Option Nat
  score : Rat
deriving DecidableEq, Repr

structure DetectorOptions where
  minParagraphLength : Option Nat
  scoreParagraphs : Bool
deriving DecidableEq, Repr

/-- options.minParagraphLength || 20 (JavaScript: 0 is falsy). -/
def minLengthOf : Option Nat → Nat
  | some v => if v = 0 then 20 else v
  | none => 20

/-- Materialization of one accepted element (lines 38-50). -/
def mkParagraph (opts : DetectorOptions) (i : Nat) (e : Elem) : Paragraph :=
  { id := "p-" ++ toString i,
    text := e.text,
    html := e.html,
    index := i,
    element := e.selectorPath,
    bounds := e.bounds,
    isQuote := e.isQuote,
    isCode := e.isCode,
    isHeading := e.isHeading,
    headingLevel := e.headingLevel,
    importance := if opts.scoreParagraphs then e.score else (1 : Rat) / 2 }

/-- The elements.forEach loop of detect (lines 33-53): elements below the
minimum length are skipped, the forEach index is used for id and index. -/
def detectCandidatesFrom (opts : DetectorOptions) (i : Nat) : List Elem → List Paragraph
  | [] => []
  | e :: es =>
      if e.text.length < minLengthOf opts.minParagraphLength then
        detectCandidatesFrom opts (i + 1) es
      else mkParagraph opts i e :: detectCandidatesFrom opts (i + 1) es

/-- ParagraphDetector.detect (lines 28-56), over the element list found by
findParagraphElements. -/
def detect (opts : DetectorOptions) (elems : List Elem) : List Paragraph :=
  postProcess (detectCandidatesFrom opts 0 elems)

end ParagraphDetector

/-! ## Site adapters -/

/-- The partial content record built by the adapter extract methods.
metadata is { source, extractedAt: new Date(), tags: [] }; extractedAt is
the wall-clock time and is elided, source is kept. -/
structure AdapterResult where
  title : String
  paragraphs : List Paragraph
  cleanText : String
  wordCount : Nat
  readingTime : Nat
  source : String
deriving DecidableEq, Repr

namespace WikipediaAdapter

/-- One element of content.querySelectorAll(p, h2, h3, h4, blockquote,
.mw-headline).  text is the trimmed textContent used by the length filter;
textAfterEdit/htmlAfterEdit are textContent/innerHTML after the
.mw-editsection child (if any) has been removed, since the code removes it
between the filter and the push. -/
structure WikiElem where
  text : String
  textAfterEdit : String
  htmlAfterEdit : String
  tagName : String
  hasHeadlineClass : Bool
  parentTag : Option String
  bounds : Rect
deriving DecidableEq, Repr

/-- The digit of an h2-h6 tag name (the /^h[2-6]$/ tests). -/
def tagHeadingLevel? (t : String) : Option Nat :=
  if t = "h2" then some 2
  else if t = "h3" then some 3
  else if t = "h4" then some 4
  else if t = "h5" then some 5
  else if t = "h6" then some 6
  else none

/-- classList.contains(mw-headline) || /^h[2-6]$/.test(tagName) -/
def wikiIsHeading (e : WikiElem) : Bool :=
  e.hasHeadlineClass || (tagHeadingLevel? e.tagName).isSome

/-- WikipediaAdapter.getHeadingLevel (lines 67-77). -/
def getHeadingLevel (e : WikiElem) : Nat :=
  match tagHeadingLevel? e.tagName with
  | some n => n
  | none =>
      match e.parentTag with
      | some p =>
          match tagHeadingLevel? p with
          | some n => n
          | none => 2
      | none => 2

/-- The paragraph pushed for element e at forEach index i (lines 49-61). -/
def mkWikiParagraph (i : Nat) (e : WikiElem) : Paragraph :=
  { id := "p-" ++ toString i,
    text := e.textAfterEdit,
    html := e.htmlAfterEdit,
    index := i,
    element := e.tagName,
    bounds := e.bounds,
    isQuote := e.tagName == "blockquote",
    isCode := false,
    isHeading := wikiIsHeading e,
    headingLevel := if wikiIsHeading e then some (getHeadingLevel e) else none,
    importance := if wikiIsHeading e then (9 : Rat) / 10 else (7 : Rat) / 10 }

/-- The elements.forEach loop of detectParagraphs (lines 38-62): elements
whose trimmed text is shorter than 10 are skipped, but the forEach index i
keeps counting and is what goes into id and index. -/
def detectParagraphsFrom (i : Nat) : List WikiElem → List Paragraph
  | [] => []
  | e :: es =>
      if e.text.length < 10 then detectParagraphsFrom (i + 1) es
      else mkWikiParagraph i e :: detectParagraphsFrom (i + 1) es

/-- The wikipedia document as seen by the adapter: whether the
mw-parser-output container exists, the trimmed firstHeading text when
present, and the queried element list. -/
structure WikiDoc where
  hasContainer : Bool
  firstHeading : Option String
  elements : List WikiElem
deriving DecidableEq, Repr

/-- WikipediaAdapter.detectParagraphs (lines 31-65). -/
def detectParagraphs (doc : WikiDoc) : List Paragraph :=
  if doc.hasContainer then detectParagraphsFrom 0 doc.elements else []

/-- WikipediaAdapter.extract (lines 8-29): returns the empty partial record
(none here) when the content container is missing. -/
def extract (doc : WikiDoc) : Option AdapterResult :=
  if doc.hasContainer then
    let ps := detectParagraphs doc
    let cleanText := String.intercalate "\n\n" (ps.map Paragraph.text)
    some { title := doc.firstHeading.getD "",
           paragraphs := ps,
           cleanText := cleanText,
           wordCount := jsWordCount cleanText,
           readingTime := readingTimeOf (jsWordCount cleanText),
           source := "wikipedia.org" }
  else none

end WikipediaAdapter

namespace RedditAdapter

/-- A DOM node with its trimmed text, innerHTML and bounds. -/
structure Node where
  text : String
  html : String
  bounds : Rect
deriving DecidableEq, Repr

/-- One [data-testid=comment] element: its RichTextJSON-root body (if any)
and the trimmed author link text (if any). -/
structure RedditComment where
  body : Option Node
  author : Option String
deriving DecidableEq, Repr

/-- The reddit document: the extractTitle result (an h1 / post-title /
document-title fallback chain over the DOM, carried as an attribute), the
post-content node and the comment list. -/
structure RedditDoc where
  title : String
  postContent : Option Node
  comments : List RedditComment
deriving DecidableEq, Repr

/-- The paragraph pushed for the post content (lines 36-47). -/
def mkPostPara (b : Node) : Paragraph :=
  { id := "p-0",
    text := b.text,
    html := b.html,
    index := 0,
    element := "[data-test-id=\"post-content\"]",
    bounds := b.bounds,
    isQuote := false,
    isCode := false,
    isHeading := false,
    headingLevel := none,
    importance := (9 : Rat) / 10 }

/-- The paragraph pushed for a comment body at counter value i
(lines 59-70).  The element selector uses the post-increment value i+1. -/
def mkCommentPara (i : Nat) (author : Option String) (b : Node) : Paragraph :=
  { id := "p-" ++ toString i,
    text := match author with
            | some a => "[" ++ a ++ "]: " ++ b.text
            | none => b.text,
    html := b.html,
    index := i,
    element := "[data-testid=\"comment\"]:nth-of-type(" ++ toString (i + 1) ++ ")",
    bounds := b.bounds,
    isQuote := true,
    isCode := false,
    isHeading := false,
    headingLevel := none,
    importance := (5 : Rat) / 10 }

/-- The comments.forEach loop (lines 51-73), threading the shared index
counter: only comment bodies with text longer than 10 are pushed and only
they advance the counter. -/
def commentParas : Nat → List RedditComment → List Paragraph
  | _, [] => []
  | i, c :: cs =>
      match c.body with
      | none => commentParas i cs
      | some b =>
          if 10 < b.text.length then
            mkCommentPara i c.author b :: commentParas (i + 1) cs
          else commentParas i cs

/-- RedditAdapter.detectParagraphs (lines 28-76): the post content (kept
only when its text is longer than 10) followed by the comments, sharing one
index counter. -/
def detectParagraphs (doc : RedditDoc) : List Paragraph :=
  match doc.postContent with
  | some b =>
      if 10 < b.text.length then mkPostPara b :: commentParas 1 doc.comments
      else commentParas 0 doc.comments
  | none => commentParas 0 doc.comments

/-- RedditAdapter.extract (lines 8-26): no container guard, always a full
record. -/
def extract (doc : RedditDoc) : AdapterResult :=
  let ps := detectParagraphs doc
  let cleanText := String.intercalate "\n\n" (ps.map Paragraph.text)
  { title := doc.title,
    paragraphs := ps,
    cleanText := cleanText,
    wordCount := jsWordCount cleanText,
    readingTime := readingTimeOf (jsWordCount cleanText),
    source := "reddit.com" }

end RedditAdapter

namespace SubstackAdapter

/-- One element of content.querySelectorAll(p, h1, h2, h3, h4, blockquote,
pre). -/
structure SubElem where
  text : String
  html : String
  tagName : String
  bounds : Rect
deriving DecidableEq, Repr

/-- The substack document: whether a .post/article element exists (guard of
extract), the trimmed title text, and the element list of the
.body/.post-content/article container when that container exists. -/
structure SubDoc where
  hasPostOrArticle : Bool
  title : Option String
  content : Option (List SubElem)
deriving DecidableEq, Repr

/-- The digit of an h1-h6 tag name (the /^h[1-6]$/ test; parseInt of the
second character). -/
def subHeadingLevel? (t : String) : Option Nat :=
  if t = "h1" then some 1
  else if t = "h2" then some 2
  else if t = "h3" then some 3
  else if t = "h4" then some 4
  else if t = "h5" then some 5
  else if t = "h6" then some 6
  else none

/-- The paragraph pushed for element e at forEach index i (lines 189-201 of
src/unnamed/part_000). -/
def mkSubParagraph (i : Nat) (e : SubElem) : Paragraph :=
  { id := "p-" ++ toString i,
    text := e.text,
    html := e.html,
    index := i,
    element := e.tagName,
    bounds := e.bounds,
    isQuote := e.tagName == "blockquote",
    isCode := e.tagName == "pre",
    isHeading := (subHeadingLevel? e.tagName).isSome,
    headingLevel := subHeadingLevel? e.tagName,
    importance := if (subHeadingLevel? e.tagName).isSome then (9 : Rat) / 10
                  else (7 : Rat) / 10 }

/-- The elements.forEach loop of detectParagraphs: same skip-but-count
pattern as the wikipedia adapter. -/
def detectParagraphsFrom (i : Nat) : List SubElem → List Paragraph
  | [] => []
  | e :: es =>
      if e.text.length < 10 then detectParagraphsFrom (i + 1) es
      else mkSubParagraph i e :: detectParagraphsFrom (i + 1) es

/-- SubstackAdapter.detectParagraphs (lines 175-205): empty when the
content container is missing. -/
def detectParagraphs (doc : SubDoc) : List Paragraph :=
  match doc.content with
  | some es => detectParagraphsFrom 0 es
  | none => []

/-- SubstackAdapter.extract (lines 152-173). -/
def extract (doc : SubDoc) : Option AdapterResult :=
  if doc.hasPostOrArticle then
    let ps := detectParagraphs doc
    let cleanText := String.intercalate "\n\n" (ps.map Paragraph.text)
    some { title := doc.title.getD "",
           paragraphs := ps,
           cleanText := cleanText,
           wordCount := jsWordCount cleanText,
           readingTime := readingTimeOf (jsWordCount cleanText),
           source := "substack.com" }
  else none

end SubstackAdapter

/-! ## Adapter registry (src/unnamed/part_000, lines 229-281) -/

namespace Adapters

/-- A registered site adapter as the dispatch code sees it: a name, URL
matchers (RegExp.test becomes a boolean predicate on the URL string), and an
optional priority.  The extract strategy itself plays no role in dispatch
and is elided. -/
structure Adapter where
  name : String
  patterns : List (String → Bool)
  priority : Option Int

/-- (a.priority || 0) -/
def prio (a : Adapter) : Int := a.priority.getD 0

/-- adapter.patterns.some((pattern) => pattern.test(url)) -/
def matchesUrl (a : Adapter) (url : String) : Bool :=
  a.patterns.any (fun p => p url)

/-- Stable insertion into a list already sorted by descending priority: x is
placed before the first element whose priority does not exceed it.  Folding
this over the list is a stable sort, which models
[...adapters].sort((a, b) => (b.priority || 0) - (a.priority || 0)):
Array.prototype.sort is specified to be stable, and a stable sort by a total
preorder has a unique result. -/
def insertByPrio (x : Adapter) : List Adapter → List Adapter
  | [] => [x]
  | y :: ys => if prio y ≤ prio x then x :: y :: ys else y :: insertByPrio x ys

def sortByPrioDesc (l : List Adapter) : List Adapter :=
  l.foldr insertByPrio []

/-- getSiteAdapter (lines 240-251): sort a copy by descending priority,
return the first adapter whose pattern set matches the url. -/
def getSiteAdapter (adapters : List Adapter) (url : String) : Option Adapter :=
  (sortByPrioDesc adapters).find? (fun a => matchesUrl a url)

/-- registerAdapter (lines 253-260): findIndex on the name; replace in
place when found, push otherwise. -/
def registerAdapter (adapters : List Adapter) (a : Adapter) : List Adapter :=
  match adapters with
  | [] => [a]
  | b :: rest => if b.name = a.name then a :: rest else b :: registerAdapter rest a

/-- Modelled from the spec for comparison with getSiteAdapter: scan left to
right keeping the current best, replacing it only on strictly greater
priority; the result is the first element attaining the maximum priority,
which is what highest-priority dispatch with insertion-order tie-break
means. -/
def firstMaxBy : List Adapter → Option Adapter
  | [] => none
  | x :: m =>
      match firstMaxBy m with
      | none => some x
      | some y => if prio x < prio y then some y else some x

/-- The registry names, in order. -/
def names (l : List Adapter) : List String := l.map Adapter.name

end Adapters

/-! ## ContentExtractorService (src/src/adapters/wikipedia.ts, lines 78-654)

The service is modelled as explicit state passing.  What the code obtains
from collaborators (URL parsing, network fetch, DOM parsing, the enhanced
extractor, plugin hooks, the SHA-256 digest) is supplied by an environment
record of oracle functions; fallible ones return Except, mirroring code that
can throw.  A single call sees one clock value.  The in-flight deduplication
map (pendingExtractions) is empty outside a call in sequential execution
and plays no role in the claims below, so it is elided; the LRU size/count
eviction of the lru-cache dependency is likewise not modelled, only the
ttl-based staleness check that getFromCache itself performs. -/

namespace ContentExtractorService

/-- A dynamic value that is either a Date (epoch milliseconds) or a string:
the runtime type of date-bearing fields before and after a JSON round trip. -/
inductive DVal where
  | date (ms : Int)
  | str (s : String)
deriving DecidableEq, Repr

structure ContentQuality where
  score : Rat
  textDensity : Rat
  linkDensity : Rat
  adDensity : Rat
  readabilityScore : Rat
  structureScore : Rat
  completeness : Rat
deriving DecidableEq, Repr

/-- ContentMetadata with its date-bearing fields; the remaining optional
fields of the source record are string/number valued and behave like
author under every operation modelled here. -/
structure ContentMetadata where
  author : Option String
  publishDate : Option DVal
  updateDate : Option DVal
  tags : List String
  source : String
  extractedAt : DVal
deriving DecidableEq, Repr

/-- The ExtractedContent aggregate (src/src/types.ts); sections and the
optional tables/lists/embeds/structuredData collections are elided: no
embedded operation examines them. -/
structure ExtractedContent where
  title : String
  paragraphs : List Paragraph
  cleanText : String
  metadata : ContentMetadata
  readingTime : Nat
  wordCount : Nat
  language : String
  quality : ContentQuality
  fingerprint : String
deriving DecidableEq, Repr

structure ValidationResult where
  valid : Bool
  errors : List String
deriving DecidableEq, Repr

/-- ContentExtractorService.validateContent (lines 627-653).  JavaScript
!content.title is true exactly for the empty string here, so the first
guard tests emptiness twice. -/
def validateContent (content : ExtractedContent) : ValidationResult :=
  let e1 : List String := if content.title.length = 0 then ["Missing title"] else []
  let e2 : List String :=
    if content.paragraphs.length = 0 then ["No paragraphs extracted"] else []
  let e3 : List String :=
    if content.wordCount < 50 then ["Content too short (less than 50 words)"] else []
  let e4 : List String :=
    if content.quality.score < (3 : Rat) / 10 then ["Content quality too low"] else []
  let errors := e1 ++ e2 ++ e3 ++ e4
  { valid := errors.length = 0, errors := errors }

/-- JSON.stringify turns a Date into its toJSON result, the ISO string;
JSON.parse leaves it a string.  A value that is already a string survives. -/
def roundDVal (iso : Int → String) : DVal → DVal
  | .date ms => .str (iso ms)
  | .str s => .str s

def jsonRoundTripMetadata (iso : Int → String) (m : ContentMetadata) :
    ContentMetadata :=
  { m with
      extractedAt := roundDVal iso m.extractedAt,
      publishDate := m.publishDate.map (roundDVal iso),
      updateDate := m.updateDate.map (roundDVal iso) }

/-- importContent(exportContent(c, json), json): stringify-then-parse is the
identity on strings, numbers, booleans, lists and plain records of these;
absent optional fields are dropped by stringify and parse back as absent;
bounds serialize through DOMRect.toJSON to a plain record with the same
numeric fields; only Date values change representation, becoming their ISO
strings.  The ISO rendering is a parameter. -/
def jsonRoundTrip (iso : Int → String) (c : ExtractedContent) : ExtractedContent :=
  { c with metadata := jsonRoundTripMetadata iso c.metadata }

def pad2 (n : Nat) : String :=
  if n < 10 then "0" ++ toString n else toString n

def pad3 (n : Nat) : String :=
  if n < 10 then "00" ++ toString n
  else if n < 100 then "0" ++ toString n
  else toString n

def pad4 (n : Nat) : String :=
  if n < 10 then "000" ++ toString n
  else if n < 100 then "00" ++ toString n
  else if n < 1000 then "0" ++ toString n
  else toString n

/-- Date.prototype.toISOString for epoch milliseconds, via the civil-
from-days calendar algorithm; four-digit years suffice for the dates used
here. -/
def dateToISOString (ms : Int) : String :=
  let day := ms.fdiv 86400000
  let msOfDay := (ms - day * 86400000).toNat
  let z := day + 719468
  let era := z.fdiv 146097
  let doe := (z - era * 146097).toNat
  let yoe := (doe - doe / 1460 + doe / 36524 - doe / 146096) / 365
  let doy := doe - (365 * yoe + yoe / 4 - yoe / 100)
  let mp := (5 * doy + 2) / 153
  let d := doy - (153 * mp + 2) / 5 + 1
  let m := if mp < 10 then mp + 3 else mp - 9
  let y : Int := (yoe : Int) + era * 400 + (if m ≤ 2 then 1 else 0)
  pad4 y.toNat ++ "-" ++ pad2 m ++ "-" ++ pad2 d ++ "T" ++
    pad2 (msOfDay / 3600000) ++ ":" ++ pad2 (msOfDay % 3600000 / 60000) ++ ":" ++
    pad2 (msOfDay % 60000 / 1000) ++ "." ++ pad3 (msOfDay % 1000) ++ "Z"

structure CacheOptions where
  enabled : Bool
  ttl : Int
  maxSize : Int
  strategy : String
  persistent : Bool
deriving DecidableEq, Repr

/-- The defaultCacheOptions field initializer (lines 130-136). -/
def defaultCacheOptions : CacheOptions :=
  { enabled := true, ttl := 3600000, maxSize := 50, strategy := "lru",
    persistent := false }

structure CacheEntry where
  content : ExtractedContent
  timestamp : Int
deriving DecidableEq, Repr

/-- The cache as an association list keyed by the cache key. -/
abbrev CacheState := List (String × CacheEntry)

def lookupCache : CacheState → String → Option CacheEntry
  | [], _ => none
  | e :: rest, key => if e.1 = key then some e.2 else lookupCache rest key

def setCache : CacheState → String → CacheEntry → CacheState
  | [], key, v => [(key, v)]
  | e :: rest, key, v =>
      if e.1 = key then (key, v) :: rest else e :: setCache rest key v

/-- The mutable service state: primary cache, persistent cache (used only
when the persistent option is set), hit/miss counters, the rate limiter map,
and an instrumentation counter of network fetches performed. -/
structure SvcState where
  cache : CacheState
  persistentCache : CacheState
  cacheHits : Nat
  cacheMisses : Nat
  limiter : LimiterState
  fetchCount : Nat
deriving DecidableEq, Repr

def initSvcState : SvcState :=
  { cache := [], persistentCache := [], cacheHits := 0, cacheMisses := 0,
    limiter := [], fetchCount := 0 }

/-- Parsed documents are opaque to the orchestrator. -/
abbrev Doc := String

/-- The collaborators of one service instance.  Options records enter only
through their JSON serialization, so they are carried as an optional
serialized string. -/
structure SvcEnv where
  cacheOptions : CacheOptions
  hashString : String → String
  parseHostname : String → Except String String
  fetchResult : String → Except String String
  parse : String → Doc
  beforeHooks : List (Doc → Except String Doc)
  afterHooks : List (ExtractedContent → Except String ExtractedContent)
  extractEnhanced : Doc → String → Option String → Except String ExtractedContent

/-- getCacheKey (lines 534-537). -/
def getCacheKey (env : SvcEnv) (url : String) (opts : Option String) : String :=
  let optionsHash := match opts with | some s => s | none => "default"
  url ++ "_" ++ env.hashString optionsHash

/-- generateFingerprint (lines 543-546). -/
def generateFingerprint (env : SvcEnv) (c : ExtractedContent) : String :=
  env.hashString (c.cleanText.take 1000 ++ c.title)

def setFingerprint (env : SvcEnv) (c : ExtractedContent) : ExtractedContent :=
  { c with fingerprint := generateFingerprint env c }

/-- The plugin hook chains of _extract (lines 313-317 and 324-328): each
hook is applied in registration order; a throw aborts the chain. -/
def runHooks {α : Type} (hooks : List (α → Except String α)) (x : α) :
    Except String α :=
  match hooks with
  | [] => .ok x
  | h :: hs =>
      match h x with
      | .error e => .error e
      | .ok y => runHooks hs y

/-- The persistent-cache fallback of getFromCache (lines 505-514): a fresh
persistent hit is copied into the primary cache. -/
def getFromPersistent (env : SvcEnv) (now : Int) (key : String) (st : SvcState) :
    Option ExtractedContent × SvcState :=
  if env.cacheOptions.persistent then
    match lookupCache st.persistentCache key with
    | some e =>
        if now - e.timestamp < env.cacheOptions.ttl then
          (some e.content, { st with cache := setCache st.cache key e })
        else (none, st)
    | none => (none, st)
  else (none, st)

/-- getFromCache (lines 491-517): a primary entry is a hit exactly when its
age is strictly below ttl; otherwise the persistent store is consulted. -/
def getFromCache (env : SvcEnv) (now : Int) (url : String) (opts : Option String)
    (st : SvcState) : Option ExtractedContent × SvcState :=
  let key := getCacheKey env url opts
  match lookupCache st.cache key with
  | some e =>
      if now - e.timestamp < env.cacheOptions.ttl then (some e.content, st)
      else getFromPersistent env now key st
  | none => getFromPersistent env now key st

/-- saveToCache (lines 519-532). -/
def saveToCache (env : SvcEnv) (now : Int) (url : String) (opts : Option String)
    (content : ExtractedContent) (st : SvcState) : SvcState :=
  let key := getCacheKey env url opts
  let entry : CacheEntry := ⟨content, now⟩
  let st1 := { st with cache := setCache st.cache key entry }
  if env.cacheOptions.persistent then
    { st1 with persistentCache := setCache st1.persistentCache key entry }
  else st1

/-- The fetch-and-extract tail of _extract (lines 305-339): fetch (counted),
parse, beforeExtract hooks, enhanced extraction, afterExtract hooks,
fingerprint, cache write. -/
def extractCoreFetch (env : SvcEnv) (now : Int) (url : String)
    (opts : Option String) (st : SvcState) :
    Except String ExtractedContent × SvcState :=
  let st1 : SvcState := { st with fetchCount := st.fetchCount + 1 }
  match env.fetchResult url with
  | .error e => (.error e, st1)
  | .ok html =>
      match runHooks env.beforeHooks (env.parse html) with
      | .error e => (.error e, st1)
      | .ok doc2 =>
          match env.extractEnhanced doc2 url opts with
          | .error e => (.error e, st1)
          | .ok c0 =>
              match runHooks env.afterHooks c0 with
              | .error e => (.error e, st1)
              | .ok c1 =>
                  let c2 := setFingerprint env c1
                  if env.cacheOptions.enabled then
                    (.ok c2, saveToCache env now url opts c2 st1)
                  else (.ok c2, st1)

/-- _extract (lines 286-340). -/
def extractCore (env : SvcEnv) (now : Int) (url : String) (opts : Option String)
    (st : SvcState) : Except String ExtractedContent × SvcState :=
  if env.cacheOptions.enabled then
    match getFromCache env now url opts st with
    | (some c, st1) => (.ok c, { st1 with cacheHits := st1.cacheHits + 1 })
    | (none, st1) =>
        extractCoreFetch env now url opts
          { st1 with cacheMisses := st1.cacheMisses + 1 }
  else extractCoreFetch env now url opts st

/-- The result union of src/src/types.ts: success with data, or a tagged
failure carrying the error (the partial field is never populated). -/
inductive ExtractionResult where
  | success (data : ExtractedContent)
  | failure (error : String)
deriving DecidableEq, Repr

def rateLimitMessage (domain : String) : String :=
  "Rate limit exceeded for " ++ domain ++ ". Try again later."

/-- The body of the try block of extract (lines 181-204): hostname, rate
limit, then _extract.  Any propagating error of a step aborts the body. -/
def extractInner (env : SvcEnv) (now : Int) (url : String) (opts : Option String)
    (st : SvcState) : Except String ExtractedContent × SvcState :=
  match env.parseHostname url with
  | .error e => (.error e, st)
  | .ok domain =>
      let r := checkLimit defaultRateLimiter now domain st.limiter
      let st1 : SvcState := { st with limiter := r.2 }
      if r.1 then extractCore env now url opts st1
      else (.error (rateLimitMessage domain), st1)

/-- ContentExtractorService.extract (lines 176-213).  The whole body runs
inside try/catch, so every throw of the body, including one raised inside a
plugin hook, is converted to a tagged failure result; the outer Except
models an exception escaping extract itself and is ok by construction. -/
def extract (env : SvcEnv) (now : Int) (url : String) (opts : Option String)
    (st : SvcState) : Except String ExtractionResult × SvcState :=
  match extractInner env now url opts st with
  | (.ok c, st1) => (.ok (.success c), st1)
  | (.error e, st1) => (.ok (.failure e), st1)

end ContentExtractorService

/-! ## Concrete inputs used by counterexamples and witnesses -/

def witAdapterLow : Adapters.Adapter :=
  { name := "low", patterns := [fun u => u = "https://example.com"],
    priority := some 5 }

def witAdapterHigh : Adapters.Adapter :=
  { name := "high", patterns := [fun u => u = "https://example.com"],
    priority := some 10 }

def witAdapterLowReplacement : Adapters.Adapter :=
  { name := "low", patterns := [fun u => u = "https://other.example"],
    priority := some 7 }

def lowQuality : ContentExtractorService.ContentQuality :=
  { score := (1 : Rat) / 5, textDensity := 0, linkDensity := 0, adDensity := 0,
    readabilityScore := 0, structureScore := 0, completeness := 0 }

def okQuality : ContentExtractorService.ContentQuality :=
  { score := (4 : Rat) / 5, textDensity := 0, linkDensity := 0, adDensity := 0,
    readabilityScore := 0, structureScore := 0, completeness := 0 }

def sampleMetadata : ContentExtractorService.ContentMetadata :=
  { author := none, publishDate := none, updateDate := none, tags := [],
    source := "example.com", extractedAt := ContentExtractorService.DVal.date 0 }

/-- The record of the validateContent scenario: empty title, no paragraphs,
wordCount 10, quality score 0.2. -/
def sampleInvalidContent : ContentExtractorService.ExtractedContent :=
  { title := "", paragraphs := [], cleanText := "", metadata := sampleMetadata,
    readingTime := 0, wordCount := 10, language := "en", quality := lowQuality,
    fingerprint := "" }

/-- A well-formed content value whose extractedAt is a Date (as every value
produced by the extractor is). -/
def cexContent8 : ContentExtractorService.ExtractedContent :=
  { title := "T", paragraphs := [], cleanText := "body", metadata := sampleMetadata,
    readingTime := 1, wordCount := 1, language := "en", quality := okQuality,
    fingerprint := "fp" }

def witContent8 : ContentExtractorService.ExtractedContent :=
  { title := "W", paragraphs := [], cleanText := "w", metadata := sampleMetadata,
    readingTime := 1, wordCount := 1, language := "en", quality := okQuality,
    fingerprint := "w" }

def witContent1 : ContentExtractorService.ExtractedContent :=
  { title := "Article", paragraphs := [], cleanText := "text", metadata := sampleMetadata,
    readingTime := 1, wordCount := 1, language := "en", quality := okQuality,
    fingerprint := "" }

/-- An environment whose single beforeExtract plugin hook throws. -/
def cexEnv7 : ContentExtractorService.SvcEnv :=
  { cacheOptions := ContentExtractorService.defaultCacheOptions,
    hashString := fun s => s,
    parseHostname := fun _ => Except.ok "example.com",
    fetchResult := fun _ => Except.ok "html",
    parse := fun h => h,
    beforeHooks := [fun _ => Except.error "plugin boom"],
    afterHooks := [],
    extractEnhanced := fun _ _ _ => Except.error "unreached" }

/-- An environment whose fetch fails, with the cache disabled. -/
def witEnv7fetch : ContentExtractorService.SvcEnv :=
  { cacheOptions := { ContentExtractorService.defaultCacheOptions with enabled := false },
    hashString := fun s => s,
    parseHostname := fun _ => Except.ok "example.com",
    fetchResult := fun _ => Except.error "ECONNREFUSED",
    parse := fun h => h,
    beforeHooks := [],
    afterHooks := [],
    extractEnhanced := fun _ _ _ => Except.error "unreached" }

/-- A service state whose limiter window for example.com is exhausted at
time 0 under the default policy. -/
def witExhaustedState : ContentExtractorService.SvcState :=
  { ContentExtractorService.initSvcState with
      limiter := [("example.com", [0, 0, 0, 0, 0, 0, 0, 0, 0, 0])] }

/-- A fully successful environment with no plugins. -/
def witEnv1 : ContentExtractorService.SvcEnv :=
  { cacheOptions := ContentExtractorService.defaultCacheOptions,
    hashString := fun s => s,
    parseHostname := fun _ => Except.ok "example.com",
    fetchResult := fun _ => Except.ok "html",
    parse := fun h => h,
    beforeHooks := [],
    afterHooks := [],
    extractEnhanced := fun _ _ _ => Except.ok witContent1 }

def zeroRect : Rect := { x := 0, y := 0, width := 0, height := 0 }

/-- An element whose trimmed text is shorter than 10 characters: the
forEach loop of the wikipedia adapter skips it. -/
def cexWikiShort : WikipediaAdapter.WikiElem :=
  { text := "short", textAfterEdit := "short", htmlAfterEdit := "short",
    tagName := "p", hasHeadlineClass := false, parentTag := none,
    bounds := zeroRect }

/-- An element long enough to be kept. -/
def cexWikiLong : WikipediaAdapter.WikiElem :=
  { text := "a paragraph of sufficient length",
    textAfterEdit := "a paragraph of sufficient length",
    htmlAfterEdit := "a paragraph of sufficient length",
    tagName := "p", hasHeadlineClass := false, parentTag := none,
    bounds := zeroRect }

/-- A wikipedia document whose first queried element is filtered out. -/
def cexWikiDoc : WikipediaAdapter.WikiDoc :=
  { hasContainer := true, firstHeading := some "T",
    elements := [cexWikiShort, cexWikiLong] }

def witElemA : ParagraphDetector.Elem :=
  { text := "First detector candidate, twenty plus characters.",
    html := "h1", selectorPath := "p", bounds := zeroRect,
    isQuote := false, isCode := false, isHeading := false,
    headingLevel := none, score := 0 }

def witElemB : ParagraphDetector.Elem :=
  { text := "Second detector candidate, also long enough.",
    html := "h2", selectorPath := "p",
    bounds := { x := 0, y := 200, width := 0, height := 0 },
    isQuote := false, isCode := false, isHeading := false,
    headingLevel := none, score := 0 }

def witDetectorOptions : ParagraphDetector.DetectorOptions :=
  { minParagraphLength := none, scoreParagraphs := false }

/-- A wikipedia document with a container and a single too-short element. -/
def witWikiDocEmpty : WikipediaAdapter.WikiDoc :=
  { hasContainer := true, firstHeading := some "T",
    elements := [cexWikiShort] }

def witRedditDocEmpty : RedditAdapter.RedditDoc :=
  { title := "t", postContent := some { text := "tiny", html := "", bounds := zeroRect },
    comments := [{ body := none, author := none }] }

def witSubDocEmpty : SubstackAdapter.SubDoc :=
  { hasPostOrArticle := true, title := some "T",
    content := some [{ text := "tiny", html := "", tagName := "p", bounds := zeroRect }] }

/-! ## Theorems -/

theorem lookupTimes_setTimes_self (st : LimiterState) (key : String) (ts : List Int) :
    lookupTimes (setTimes st key ts) key = ts := by
  induction st with
  | nil => simp [setTimes, lookupTimes]
  | cons e rest ih =>
      by_cases h : e.1 = key
      · simp [setTimes, lookupTimes, h]
      · simp [setTimes, lookupTimes, h, ih]

theorem runChecks_cons (cfg : RateLimiterCfg) (key : String) (t : Int)
    (rest : List Int) (st : LimiterState) :
    runChecks cfg key (t :: rest) st =
      ((checkLimit cfg t key st).1 ::
          (runChecks cfg key rest (checkLimit cfg t key st).2).1,
        (runChecks cfg key rest (checkLimit cfg t key st).2).2) := rfl

theorem checkLimit_true_iff (cfg : RateLimiterCfg) (now : Int) (key : String)
    (st : LimiterState) :
    (checkLimit cfg now key st).1 = true ↔
      (validRequests cfg now (lookupTimes st key)).length < cfg.maxRequests := by
  by_cases hc : cfg.maxRequests ≤ (validRequests cfg now (lookupTimes st key)).length
  · simp [checkLimit, hc] <;> omega
  · simp [checkLimit, hc] <;> omega

theorem checkLimit_true_records (cfg : RateLimiterCfg) (now : Int) (key : String)
    (st : LimiterState) (h : (checkLimit cfg now key st).1 = true) :
    lookupTimes (checkLimit cfg now key st).2 key =
      validRequests cfg now (lookupTimes st key) ++ [now] := by
  by_cases hc : cfg.maxRequests ≤ (validRequests cfg now (lookupTimes st key)).length
  · simp [checkLimit, hc] at h
  · simp [checkLimit, hc, lookupTimes_setTimes_self]

theorem checkLimit_false_frame (cfg : RateLimiterCfg) (now : Int) (key : String)
    (st : LimiterState) (h : (checkLimit cfg now key st).1 = false) :
    (checkLimit cfg now key st).2 = st := by
  by_cases hc : cfg.maxRequests ≤ (validRequests cfg now (lookupTimes st key)).length
  · simp [checkLimit, hc]
  · simp [checkLimit, hc] at h

theorem validRequests_all_in_window (cfg : RateLimiterCfg) (now t0 : Int)
    (ts : List Int) (hnow : now < t0 + cfg.windowMs) (h : ∀ t ∈ ts, t0 ≤ t) :
    validRequests cfg now ts = ts := by
  apply List.filter_eq_self.2
  intro t ht
  have := h t ht
  simp only [decide_eq_true_eq]
  omega

theorem runChecks_window (N : Nat) (W t0 : Int) (key : String) (cur : List Int)
    (ts : List Int) (st : LimiterState)
    (hst : lookupTimes st key = cur)
    (hcur : ∀ t ∈ cur, t0 ≤ t)
    (hts : ∀ t ∈ ts, t0 ≤ t ∧ t < t0 + W) :
    (runChecks ⟨N, W⟩ key ts st).1 =
      List.replicate (min ts.length (N - cur.length)) true ++
      List.replicate (ts.length - (N - cur.length)) false := by
  induction ts generalizing st cur with
  | nil => simp [runChecks]
  | cons t rest ih =>
      have htmem : t0 ≤ t ∧ t < t0 + W := hts t (by simp)
      have hvalid : validRequests ⟨N, W⟩ t (lookupTimes st key) = cur := by
        rw [hst]
        exact validRequests_all_in_window ⟨N, W⟩ t t0 cur htmem.2 hcur
      by_cases hfull : N ≤ cur.length
      · -- over the limit: this call and every later call return false
        have hchk : checkLimit ⟨N, W⟩ t key st = (false, st) := by
          simp [checkLimit, hvalid, hfull]
        have hrec := ih cur st hst hcur (fun s hs => hts s (by simp [hs]))
        have h0 : N - cur.length = 0 := by omega
        simp [runChecks_cons, hchk, hrec, h0, List.replicate_succ]
      · -- under the limit: true, with t appended to the recorded list
        have hchk : checkLimit ⟨N, W⟩ t key st =
            (true, setTimes st key (cur ++ [t])) := by
          simp [checkLimit, hvalid, hfull]
        have hst2 : lookupTimes (setTimes st key (cur ++ [t])) key = cur ++ [t] :=
          lookupTimes_setTimes_self ..
        have hcur2 : ∀ s ∈ cur ++ [t], t0 ≤ s := by
          intro s hs
          rcases List.mem_append.1 hs with h | h
          · exact hcur s h
          · simp at h; omega
        have hrec := ih (cur ++ [t]) (setTimes st key (cur ++ [t])) hst2 hcur2
          (fun s hs => hts s (by simp [hs]))
        rcases Nat.exists_eq_add_of_lt (show cur.length < N by omega) with ⟨m, hm⟩
        subst hm
        simp only [runChecks_cons, hchk]
        simp only [List.length_cons]
        rw [hrec]
        have e2 : cur.length + m + 1 - (cur ++ [t]).length = m := by
          simp only [List.length_append, List.length_cons, List.length_nil]
          omega
        have e1 : cur.length + m + 1 - cur.length = m + 1 := by omega
        rw [e2, e1]
        have e3 : (rest.length + 1) ⊓ (m + 1) = rest.length ⊓ m + 1 := by omega
        have e4 : rest.length + 1 - (m + 1) = rest.length - m := by omega
        rw [e3, e4, List.replicate_succ, List.cons_append]

/-- Claim C2: checkLimit returns true iff strictly fewer than maxRequests
recorded timestamps lie within the trailing window, and exactly when it
returns true the current time is recorded; from a fresh key, N + 1 calls all
inside one window produce N true results followed by false, a call after the
whole window has elapsed succeeds again, and the default policy is
10 requests per 60000 ms. -/
theorem claim_C2 :
    (∀ cfg now key st, (checkLimit cfg now key st).1 = true ↔
        (validRequests cfg now (lookupTimes st key)).length < cfg.maxRequests) ∧
    (∀ cfg now key st,
        ((checkLimit cfg now key st).1 = true →
          lookupTimes (checkLimit cfg now key st).2 key =
            validRequests cfg now (lookupTimes st key) ++ [now]) ∧
        ((checkLimit cfg now key st).1 = false →
          (checkLimit cfg now key st).2 = st)) ∧
    (∀ (N : Nat) (W t0 : Int) key st ts, lookupTimes st key = [] →
        (∀ t ∈ ts, t0 ≤ t ∧ t < t0 + W) → ts.length = N + 1 →
        (runChecks ⟨N, W⟩ key ts st).1 = List.replicate N true ++ [false]) ∧
    (∀ (N : Nat) (W now : Int) key st, 0 < N →
        (∀ t ∈ lookupTimes st key, W ≤ now - t) →
        (checkLimit ⟨N, W⟩ now key st).1 = true) ∧
    defaultRateLimiter = ⟨10, 60000⟩ := by
  refine ⟨checkLimit_true_iff, fun cfg now key st =>
    ⟨checkLimit_true_records cfg now key st, checkLimit_false_frame cfg now key st⟩,
    ?_, ?_, rfl⟩
  · intro N W t0 key st ts hempty hts hlen
    have h := runChecks_window N W t0 key [] ts st hempty (by simp) hts
    simp only [List.length_nil, Nat.sub_zero] at h
    rw [hlen] at h
    have e1 : min (N + 1) N = N := by omega
    have e2 : N + 1 - N = 1 := by omega
    rw [e1, e2] at h
    simpa using h
  · intro N W now key st hN hexp
    rw [checkLimit_true_iff]
    have : validRequests ⟨N, W⟩ now (lookupTimes st key) = [] := by
      apply List.filter_eq_nil_iff.2
      intro t ht
      have := hexp t ht
      simp only [decide_eq_true_eq]
      omega
    rw [this]
    simpa using hN

/-- Witness for claim C2: with a limit of 2 per 100 ms window, three calls
at times 0, 1, 2 on a fresh key yield true, true, false; and after the
window has fully elapsed a call succeeds again. -/
theorem claim_C2_witness :
    (runChecks ⟨2, 100⟩ "k" [0, 1, 2] []).1 = [true, true, false] ∧
    (checkLimit ⟨2, 100⟩ 300 "k" [("k", [0, 1])]).1 = true := by
  constructor
  · have h := claim_C2.2.2.1 2 100 0 "k" [] [0, 1, 2] rfl (by decide) rfl
    simpa using h
  · exact claim_C2.2.2.2.1 2 100 300 "k" [("k", [0, 1])] (by decide) (by decide)

/-- Claim C9 counterexample: the claim states that getRemainingRequests
prunes expired timestamps from the stored state.  With the default policy at
time 1000000, the single recorded timestamp 0 for key k is expired
(age 1000000 >= 60000), yet the state returned by the call still contains
it unchanged: the method never writes. -/
theorem claim_C9_counterexample :
    (getRemainingRequests defaultRateLimiter 1000000 "k" [("k", [0])]).2
        = [("k", [0])] ∧
    lookupTimes (getRemainingRequests defaultRateLimiter 1000000 "k"
        [("k", [0])]).2 "k" = [0] ∧
    defaultRateLimiter.windowMs ≤ (1000000 : Int) - 0 := by
  refine ⟨rfl, rfl, by decide⟩

/-- Claim C9 as amended: getRemainingRequests returns
max(0, maxRequests - number of in-window timestamps) and performs no write
at all: the limiter state after the call is exactly the state before it
(in particular nothing is pruned and no new timestamp is recorded). -/
theorem claim_C9 :
    (∀ cfg now key st,
        ((getRemainingRequests cfg now key st).1 : Int) =
          max 0 ((cfg.maxRequests : Int) -
            (validRequests cfg now (lookupTimes st key)).length)) ∧
    (∀ cfg now key st, (getRemainingRequests cfg now key st).2 = st) := by
  constructor
  · intro cfg now key st
    simp only [getRemainingRequests]
    omega
  · intro cfg now key st
    rfl

theorem shouldMerge_iff (p1 p2 : Paragraph) :
    ParagraphDetector.shouldMerge p1 p2 = true ↔
      (p1.isHeading = false ∧ p2.isHeading = false ∧
       p1.isQuote = false ∧ p2.isQuote = false ∧
       p1.isCode = false ∧ p2.isCode = false ∧
       p2.bounds.top - (p1.bounds.top + p1.bounds.height) ≤ 50 ∧
       ParagraphDetector.endsWithSentencePunct p1.text.trim = false ∧
       ParagraphDetector.startsWithLowercase p2.text.trim = true) := by
  simp only [ParagraphDetector.shouldMerge]
  by_cases hh1 : p1.isHeading <;> by_cases hh2 : p2.isHeading <;>
    by_cases hq1 : p1.isQuote <;> by_cases hq2 : p2.isQuote <;>
    by_cases hc1 : p1.isCode <;> by_cases hc2 : p2.isCode <;>
    simp_all

theorem mergeLoop_pair (p1 p2 : Paragraph) :
    ParagraphDetector.mergeLoop none [p1, p2] =
      if ParagraphDetector.shouldMerge p1 p2 then [ParagraphDetector.mergeInto p1 p2]
      else [p1, p2] := by
  by_cases h : ParagraphDetector.shouldMerge p1 p2 <;>
    simp [ParagraphDetector.mergeLoop, h]

theorem postProcess_pair_length (p1 p2 : Paragraph) :
    (ParagraphDetector.postProcess [p1, p2]).length =
      if ParagraphDetector.shouldMerge p1 p2 then 1 else 2 := by
  by_cases h : ParagraphDetector.shouldMerge p1 p2 <;>
    simp [ParagraphDetector.postProcess, ParagraphDetector.mergeLoop,
      ParagraphDetector.reindexFrom, h]

/-- Claim C5: consecutive candidate paragraphs merge exactly when neither is
a heading, quote or code block, the vertical gap is at most 50 layout units,
the first does not end in sentence punctuation and the second starts with a
lowercase letter; negating any one condition prevents the merge.  The second
and third conjuncts state the consequence on the post-processing pass: a
two-paragraph input collapses to one paragraph exactly under shouldMerge. -/
theorem claim_C5 :
    (∀ p1 p2 : Paragraph, ParagraphDetector.shouldMerge p1 p2 = true ↔
      (p1.isHeading = false ∧ p2.isHeading = false ∧
       p1.isQuote = false ∧ p2.isQuote = false ∧
       p1.isCode = false ∧ p2.isCode = false ∧
       p2.bounds.top - (p1.bounds.top + p1.bounds.height) ≤ 50 ∧
       ParagraphDetector.endsWithSentencePunct p1.text.trim = false ∧
       ParagraphDetector.startsWithLowercase p2.text.trim = true)) ∧
    (∀ p1 p2 : Paragraph, ParagraphDetector.mergeLoop none [p1, p2] =
      if ParagraphDetector.shouldMerge p1 p2 then [ParagraphDetector.mergeInto p1 p2]
      else [p1, p2]) ∧
    (∀ p1 p2 : Paragraph, (ParagraphDetector.postProcess [p1, p2]).length =
      if ParagraphDetector.shouldMerge p1 p2 then 1 else 2) :=
  ⟨shouldMerge_iff, mergeLoop_pair, postProcess_pair_length⟩

theorem reindexFrom_get (l : List Paragraph) :
    ∀ (start i : Nat) (h : i < (ParagraphDetector.reindexFrom start l).length),
      ((ParagraphDetector.reindexFrom start l).get ⟨i, h⟩).index = start + i ∧
      ((ParagraphDetector.reindexFrom start l).get ⟨i, h⟩).id =
        "p-" ++ toString (start + i) := by
  induction l with
  | nil => intro start i h; simp [ParagraphDetector.reindexFrom] at h
  | cons p ps ih =>
      intro start i h
      cases i with
      | zero => simp [ParagraphDetector.reindexFrom]
      | succ j =>
          have h2 : j < (ParagraphDetector.reindexFrom (start + 1) ps).length := by
            simpa [ParagraphDetector.reindexFrom] using h
          have hrec := ih (start + 1) j h2
          have e : start + 1 + j = start + (j + 1) := by omega
          rw [e] at hrec
          simpa [ParagraphDetector.reindexFrom] using hrec

theorem wikiFrom_get_ge (es : List WikipediaAdapter.WikiElem) :
    ∀ (start i : Nat) (h : i < (WikipediaAdapter.detectParagraphsFrom start es).length),
      start + i ≤ ((WikipediaAdapter.detectParagraphsFrom start es).get ⟨i, h⟩).index := by
  induction es with
  | nil => intro start i h; simp [WikipediaAdapter.detectParagraphsFrom] at h
  | cons e es ih =>
      intro start i h
      by_cases hk : e.text.length < 10
      · have h2 : i < (WikipediaAdapter.detectParagraphsFrom (start + 1) es).length := by
          simpa [WikipediaAdapter.detectParagraphsFrom, hk] using h
        have := ih (start + 1) i h2
        have egoal : (WikipediaAdapter.detectParagraphsFrom start (e :: es)).get ⟨i, h⟩ =
            (WikipediaAdapter.detectParagraphsFrom (start + 1) es).get ⟨i, h2⟩ := by
          simp [WikipediaAdapter.detectParagraphsFrom, hk]
        rw [egoal]
        omega
      · cases i with
        | zero => simp [WikipediaAdapter.detectParagraphsFrom, hk,
            WikipediaAdapter.mkWikiParagraph]
        | succ j =>
            have h2 : j < (WikipediaAdapter.detectParagraphsFrom (start + 1) es).length := by
              simpa [WikipediaAdapter.detectParagraphsFrom, hk] using h
            have := ih (start + 1) j h2
            have egoal : (WikipediaAdapter.detectParagraphsFrom start (e :: es)).get
                ⟨j + 1, h⟩ =
                (WikipediaAdapter.detectParagraphsFrom (start + 1) es).get ⟨j, h2⟩ := by
              simp [WikipediaAdapter.detectParagraphsFrom, hk]
            rw [egoal]
            omega

theorem wikiFrom_mem_ge (es : List WikipediaAdapter.WikiElem) (p : Paragraph) :
    ∀ start, p ∈ WikipediaAdapter.detectParagraphsFrom start es → start ≤ p.index := by
  induction es with
  | nil => intro start hp; simp [WikipediaAdapter.detectParagraphsFrom] at hp
  | cons e es ih =>
      intro start hp
      by_cases hk : e.text.length < 10
      · simp only [WikipediaAdapter.detectParagraphsFrom, if_pos hk] at hp
        have := ih (start + 1) hp
        omega
      · simp only [WikipediaAdapter.detectParagraphsFrom, if_neg hk,
          List.mem_cons] at hp
        rcases hp with rfl | hp
        · simp [WikipediaAdapter.mkWikiParagraph]
        · have := ih (start + 1) hp
          omega

theorem wikiFrom_pairwise (es : List WikipediaAdapter.WikiElem) :
    ∀ start, (WikipediaAdapter.detectParagraphsFrom start es).Pairwise
      (fun p q => p.index < q.index) := by
  induction es with
  | nil => intro start; simp [WikipediaAdapter.detectParagraphsFrom]
  | cons e es ih =>
      intro start
      by_cases hk : e.text.length < 10
      · simpa [WikipediaAdapter.detectParagraphsFrom, hk] using ih (start + 1)
      · simp only [WikipediaAdapter.detectParagraphsFrom, if_neg hk]
        refine List.pairwise_cons.2 ⟨?_, ih (start + 1)⟩
        intro q hq
        have := wikiFrom_mem_ge es q (start + 1) hq
        simp [WikipediaAdapter.mkWikiParagraph]
        omega

theorem subFrom_get_ge (es : List SubstackAdapter.SubElem) :
    ∀ (start i : Nat) (h : i < (SubstackAdapter.detectParagraphsFrom start es).length),
      start + i ≤ ((SubstackAdapter.detectParagraphsFrom start es).get ⟨i, h⟩).index := by
  induction es with
  | nil => intro start i h; simp [SubstackAdapter.detectParagraphsFrom] at h
  | cons e es ih =>
      intro start i h
      by_cases hk : e.text.length < 10
      · have h2 : i < (SubstackAdapter.detectParagraphsFrom (start + 1) es).length := by
          simpa [SubstackAdapter.detectParagraphsFrom, hk] using h
        have := ih (start + 1) i h2
        have egoal : (SubstackAdapter.detectParagraphsFrom start (e :: es)).get ⟨i, h⟩ =
            (SubstackAdapter.detectParagraphsFrom (start + 1) es).get ⟨i, h2⟩ := by
          simp [SubstackAdapter.detectParagraphsFrom, hk]
        rw [egoal]
        omega
      · cases i with
        | zero => simp [SubstackAdapter.detectParagraphsFrom, hk,
            SubstackAdapter.mkSubParagraph]
        | succ j =>
            have h2 : j < (SubstackAdapter.detectParagraphsFrom (start + 1) es).length := by
              simpa [SubstackAdapter.detectParagraphsFrom, hk] using h
            have := ih (start + 1) j h2
            have egoal : (SubstackAdapter.detectParagraphsFrom start (e :: es)).get
                ⟨j + 1, h⟩ =
                (SubstackAdapter.detectParagraphsFrom (start + 1) es).get ⟨j, h2⟩ := by
              simp [SubstackAdapter.detectParagraphsFrom, hk]
            rw [egoal]
            omega

theorem subFrom_mem_ge (es : List SubstackAdapter.SubElem) (p : Paragraph) :
    ∀ start, p ∈ SubstackAdapter.detectParagraphsFrom start es → start ≤ p.index := by
  induction es with
  | nil => intro start hp; simp [SubstackAdapter.detectParagraphsFrom] at hp
  | cons e es ih =>
      intro start hp
      by_cases hk : e.text.length < 10
      · simp only [SubstackAdapter.detectParagraphsFrom, if_pos hk] at hp
        have := ih (start + 1) hp
        omega
      · simp only [SubstackAdapter.detectParagraphsFrom, if_neg hk,
          List.mem_cons] at hp
        rcases hp with rfl | hp
        · simp [SubstackAdapter.mkSubParagraph]
        · have := ih (start + 1) hp
          omega

theorem subFrom_pairwise (es : List SubstackAdapter.SubElem) :
    ∀ start, (SubstackAdapter.detectParagraphsFrom start es).Pairwise
      (fun p q => p.index < q.index) := by
  induction es with
  | nil => intro start; simp [SubstackAdapter.detectParagraphsFrom]
  | cons e es ih =>
      intro start
      by_cases hk : e.text.length < 10
      · simpa [SubstackAdapter.detectParagraphsFrom, hk] using ih (start + 1)
      · simp only [SubstackAdapter.detectParagraphsFrom, if_neg hk]
        refine List.pairwise_cons.2 ⟨?_, ih (start + 1)⟩
        intro q hq
        have := subFrom_mem_ge es q (start + 1) hq
        simp [SubstackAdapter.mkSubParagraph]
        omega

theorem redditCommentParas_get (cs : List RedditAdapter.RedditComment) :
    ∀ (start i : Nat) (h : i < (RedditAdapter.commentParas start cs).length),
      ((RedditAdapter.commentParas start cs).get ⟨i, h⟩).index = start + i ∧
      ((RedditAdapter.commentParas start cs).get ⟨i, h⟩).id =
        "p-" ++ toString (start + i) := by
  induction cs with
  | nil => intro start i h; simp [RedditAdapter.commentParas] at h
  | cons c cs ih =>
      intro start i h
      match hb : c.body with
      | none =>
          have h2 : i < (RedditAdapter.commentParas start cs).length := by
            simpa [RedditAdapter.commentParas, hb] using h
          have hrec := ih start i h2
          have egoal : (RedditAdapter.commentParas start (c :: cs)).get ⟨i, h⟩ =
              (RedditAdapter.commentParas start cs).get ⟨i, h2⟩ := by
            simp [RedditAdapter.commentParas, hb]
          rw [egoal]
          exact hrec
      | some b =>
          by_cases hk : 10 < b.text.length
          · cases i with
            | zero => simp [RedditAdapter.commentParas, hb, hk,
                RedditAdapter.mkCommentPara]
            | succ j =>
                have h2 : j < (RedditAdapter.commentParas (start + 1) cs).length := by
                  simpa [RedditAdapter.commentParas, hb, hk] using h
                have hrec := ih (start + 1) j h2
                have e : start + 1 + j = start + (j + 1) := by omega
                rw [e] at hrec
                have egoal : (RedditAdapter.commentParas start (c :: cs)).get
                    ⟨j + 1, h⟩ =
                    (RedditAdapter.commentParas (start + 1) cs).get ⟨j, h2⟩ := by
                  simp [RedditAdapter.commentParas, hb, hk]
                rw [egoal]
                exact hrec
          · have h2 : i < (RedditAdapter.commentParas start cs).length := by
              simpa [RedditAdapter.commentParas, hb, hk] using h
            have hrec := ih start i h2
            have egoal : (RedditAdapter.commentParas start (c :: cs)).get ⟨i, h⟩ =
                (RedditAdapter.commentParas start cs).get ⟨i, h2⟩ := by
              simp [RedditAdapter.commentParas, hb, hk]
            rw [egoal]
            exact hrec

theorem wikiDetect_true (doc : WikipediaAdapter.WikiDoc)
    (hc : doc.hasContainer = true) :
    WikipediaAdapter.detectParagraphs doc =
      WikipediaAdapter.detectParagraphsFrom 0 doc.elements := by
  simp [WikipediaAdapter.detectParagraphs, hc]

theorem wikiDetect_false (doc : WikipediaAdapter.WikiDoc)
    (hc : doc.hasContainer = false) :
    WikipediaAdapter.detectParagraphs doc = [] := by
  simp [WikipediaAdapter.detectParagraphs, hc]

theorem redditDetect_none (doc : RedditAdapter.RedditDoc)
    (hb : doc.postContent = none) :
    RedditAdapter.detectParagraphs doc =
      RedditAdapter.commentParas 0 doc.comments := by
  unfold RedditAdapter.detectParagraphs
  rw [hb]

theorem redditDetect_some_long (doc : RedditAdapter.RedditDoc)
    (b : RedditAdapter.Node) (hb : doc.postContent = some b)
    (hk : 10 < b.text.length) :
    RedditAdapter.detectParagraphs doc =
      RedditAdapter.mkPostPara b :: RedditAdapter.commentParas 1 doc.comments := by
  unfold RedditAdapter.detectParagraphs
  rw [hb]
  simp [hk]

theorem redditDetect_some_short (doc : RedditAdapter.RedditDoc)
    (b : RedditAdapter.Node) (hb : doc.postContent = some b)
    (hk : ¬ 10 < b.text.length) :
    RedditAdapter.detectParagraphs doc =
      RedditAdapter.commentParas 0 doc.comments := by
  unfold RedditAdapter.detectParagraphs
  rw [hb]
  simp [hk]

theorem subDetect_none (doc : SubstackAdapter.SubDoc)
    (hb : doc.content = none) :
    SubstackAdapter.detectParagraphs doc = [] := by
  unfold SubstackAdapter.detectParagraphs
  rw [hb]

theorem subDetect_some (doc : SubstackAdapter.SubDoc)
    (es : List SubstackAdapter.SubElem) (hb : doc.content = some es) :
    SubstackAdapter.detectParagraphs doc =
      SubstackAdapter.detectParagraphsFrom 0 es := by
  unfold SubstackAdapter.detectParagraphs
  rw [hb]

/-- Claim C4 counterexample: for the wikipedia adapter, a document in which
the first queried element is filtered out (text shorter than 10) yields a
paragraph list whose single entry has index 1, so paragraphs[0].index is not
0: the forEach index, not the output position, is recorded. -/
theorem claim_C4_counterexample :
    (WikipediaAdapter.detectParagraphs cexWikiDoc).map Paragraph.index = [1] ∧
    ¬ (∀ (i : Nat) (h : i < (WikipediaAdapter.detectParagraphs cexWikiDoc).length),
        ((WikipediaAdapter.detectParagraphs cexWikiDoc).get ⟨i, h⟩).index = i) := by
  refine ⟨by decide, fun hall => ?_⟩
  have := hall 0 (by decide)
  revert this
  decide

/-- Claim C4 as amended: after ParagraphDetector.detect (including its merge
pass) the i-th paragraph has index i and id p-i; the reddit adapter, which
threads its own counter, also yields contiguous indices and ids; the
wikipedia and substack adapters record the forEach position of the source
element, so their indices are only guaranteed to be strictly increasing and
at least the output position, not contiguous. -/
theorem claim_C4 :
    (∀ opts elems (i : Nat) (h : i < (ParagraphDetector.detect opts elems).length),
        ((ParagraphDetector.detect opts elems).get ⟨i, h⟩).index = i ∧
        ((ParagraphDetector.detect opts elems).get ⟨i, h⟩).id = "p-" ++ toString i) ∧
    (∀ doc (i : Nat) (h : i < (RedditAdapter.detectParagraphs doc).length),
        ((RedditAdapter.detectParagraphs doc).get ⟨i, h⟩).index = i ∧
        ((RedditAdapter.detectParagraphs doc).get ⟨i, h⟩).id = "p-" ++ toString i) ∧
    (∀ doc (i : Nat) (h : i < (WikipediaAdapter.detectParagraphs doc).length),
        i ≤ ((WikipediaAdapter.detectParagraphs doc).get ⟨i, h⟩).index) ∧
    (∀ doc, (WikipediaAdapter.detectParagraphs doc).Pairwise
        (fun p q => p.index < q.index)) ∧
    (∀ doc (i : Nat) (h : i < (SubstackAdapter.detectParagraphs doc).length),
        i ≤ ((SubstackAdapter.detectParagraphs doc).get ⟨i, h⟩).index) ∧
    (∀ doc, (SubstackAdapter.detectParagraphs doc).Pairwise
        (fun p q => p.index < q.index)) := by
  refine ⟨?_, ?_, ?_, ?_, ?_, ?_⟩
  · intro opts elems i h
    have := reindexFrom_get
      (ParagraphDetector.mergeLoop none (ParagraphDetector.detectCandidatesFrom opts 0 elems))
      0 i h
    simpa [ParagraphDetector.detect, ParagraphDetector.postProcess] using this
  · intro doc i
    cases hb : doc.postContent with
    | none =>
        rw [redditDetect_none doc hb]
        intro h
        simpa using redditCommentParas_get doc.comments 0 i h
    | some b =>
        by_cases hk : 10 < b.text.length
        · rw [redditDetect_some_long doc b hb hk]
          intro h
          cases i with
          | zero =>
              refine ⟨rfl, ?_⟩
              show ("p-0" : String) = "p-" ++ toString 0
              decide
          | succ j =>
              have h2 : j < (RedditAdapter.commentParas 1 doc.comments).length := by
                simpa using h
              have hrec := redditCommentParas_get doc.comments 1 j h2
              have e : 1 + j = j + 1 := by omega
              rw [e] at hrec
              simpa using hrec
        · rw [redditDetect_some_short doc b hb hk]
          intro h
          simpa using redditCommentParas_get doc.comments 0 i h
  · intro doc i
    by_cases hc : doc.hasContainer
    · rw [wikiDetect_true doc hc]
      intro h
      simpa using wikiFrom_get_ge doc.elements 0 i h
    · rw [wikiDetect_false doc (by simpa using hc)]
      intro h
      simp at h
  · intro doc
    by_cases hc : doc.hasContainer
    · rw [wikiDetect_true doc hc]
      exact wikiFrom_pairwise doc.elements 0
    · rw [wikiDetect_false doc (by simpa using hc)]
      simp
  · intro doc i
    cases hb : doc.content with
    | none =>
        rw [subDetect_none doc hb]
        intro h
        simp at h
    | some es =>
        rw [subDetect_some doc es hb]
        intro h
        simpa using subFrom_get_ge es 0 i h
  · intro doc
    cases hb : doc.content with
    | none => rw [subDetect_none doc hb]; simp
    | some es => rw [subDetect_some doc es hb]; exact subFrom_pairwise es 0

/-- Witness for the amended claim C4 at concrete inputs: a two-element
detector run has index 0 and id p-0 at position 0, and the counterexample
document satisfies the weakened adapter bound 0 <= paragraphs[0].index. -/
theorem claim_C4_witness :
    ((ParagraphDetector.detect witDetectorOptions [witElemA, witElemB]).get
        ⟨0, by decide⟩).index = 0 ∧
    0 ≤ ((WikipediaAdapter.detectParagraphs cexWikiDoc).get ⟨0, by decide⟩).index :=
  ⟨(claim_C4.1 witDetectorOptions [witElemA, witElemB] 0 (by decide)).1,
    claim_C4.2.2.1 cexWikiDoc 0 (by decide)⟩

theorem wikiFrom_all_short (es : List WikipediaAdapter.WikiElem)
    (h : ∀ e ∈ es, e.text.length < 10) :
    ∀ start, WikipediaAdapter.detectParagraphsFrom start es = [] := by
  induction es with
  | nil => intro start; rfl
  | cons e es ih =>
      intro start
      have hk : e.text.length < 10 := h e (by simp)
      simp only [WikipediaAdapter.detectParagraphsFrom, if_pos hk]
      exact ih (fun x hx => h x (by simp [hx])) (start + 1)

theorem subFrom_all_short (es : List SubstackAdapter.SubElem)
    (h : ∀ e ∈ es, e.text.length < 10) :
    ∀ start, SubstackAdapter.detectParagraphsFrom start es = [] := by
  induction es with
  | nil => intro start; rfl
  | cons e es ih =>
      intro start
      have hk : e.text.length < 10 := h e (by simp)
      simp only [SubstackAdapter.detectParagraphsFrom, if_pos hk]
      exact ih (fun x hx => h x (by simp [hx])) (start + 1)

theorem redditCommentParas_all_short (cs : List RedditAdapter.RedditComment)
    (h : ∀ c ∈ cs, ∀ b, c.body = some b → ¬ 10 < b.text.length) :
    ∀ start, RedditAdapter.commentParas start cs = [] := by
  induction cs with
  | nil => intro start; rfl
  | cons c cs ih =>
      intro start
      have ih2 := ih (fun x hx => h x (by simp [hx]))
      match hb : c.body with
      | none => simp only [RedditAdapter.commentParas, hb]; exact ih2 start
      | some b =>
          have hk : ¬ 10 < b.text.length := h c (by simp) b hb
          simp only [RedditAdapter.commentParas, hb, if_neg hk]
          exact ih2 start

theorem jsWordCount_empty : jsWordCount "" = 1 := rfl

theorem jsWordCount_intercalate_nil :
    jsWordCount ("\n\n".intercalate []) = 1 := rfl

/-- Claim C10: when the content container exists but every candidate element
is filtered out, the paragraph list is empty, cleanText is empty, and because
splitting the empty string on whitespace yields a one-element list, the
adapters report wordCount 1 and readingTime 1, never wordCount 0; this holds
for the wikipedia, reddit and substack adapters. -/
theorem claim_C10 :
    (∀ doc : WikipediaAdapter.WikiDoc, doc.hasContainer = true →
        (∀ e ∈ doc.elements, e.text.length < 10) →
        WikipediaAdapter.detectParagraphs doc = [] ∧
        (WikipediaAdapter.extract doc).map AdapterResult.wordCount = some 1 ∧
        (WikipediaAdapter.extract doc).map AdapterResult.readingTime = some 1) ∧
    (∀ doc : RedditAdapter.RedditDoc,
        (∀ b, doc.postContent = some b → ¬ 10 < b.text.length) →
        (∀ c ∈ doc.comments, ∀ b, c.body = some b → ¬ 10 < b.text.length) →
        RedditAdapter.detectParagraphs doc = [] ∧
        (RedditAdapter.extract doc).wordCount = 1 ∧
        (RedditAdapter.extract doc).readingTime = 1) ∧
    (∀ doc : SubstackAdapter.SubDoc, doc.hasPostOrArticle = true →
        (∀ es, doc.content = some es → ∀ e ∈ es, e.text.length < 10) →
        SubstackAdapter.detectParagraphs doc = [] ∧
        (SubstackAdapter.extract doc).map AdapterResult.wordCount = some 1 ∧
        (SubstackAdapter.extract doc).map AdapterResult.readingTime = some 1) := by
  refine ⟨?_, ?_, ?_⟩
  · intro doc hc hshort
    have hps : WikipediaAdapter.detectParagraphs doc = [] := by
      rw [wikiDetect_true doc hc]
      exact wikiFrom_all_short doc.elements hshort 0
    refine ⟨hps, ?_, ?_⟩ <;>
      simp [WikipediaAdapter.extract, hc, hps, jsWordCount_intercalate_nil, readingTimeOf]
  · intro doc hpost hcomments
    have hps : RedditAdapter.detectParagraphs doc = [] := by
      cases hb : doc.postContent with
      | none =>
          rw [redditDetect_none doc hb]
          exact redditCommentParas_all_short doc.comments hcomments 0
      | some b =>
          have hk : ¬ 10 < b.text.length := hpost b hb
          rw [redditDetect_some_short doc b hb hk]
          exact redditCommentParas_all_short doc.comments hcomments 0
    refine ⟨hps, ?_, ?_⟩ <;>
      simp [RedditAdapter.extract, hps, jsWordCount_intercalate_nil, readingTimeOf]
  · intro doc hc hshort
    have hps : SubstackAdapter.detectParagraphs doc = [] := by
      cases hb : doc.content with
      | none => rw [subDetect_none doc hb]
      | some es =>
          rw [subDetect_some doc es hb]
          exact subFrom_all_short es (hshort es hb) 0
    refine ⟨hps, ?_, ?_⟩ <;>
      simp [SubstackAdapter.extract, hc, hps, jsWordCount_intercalate_nil, readingTimeOf]

/-- Witness for claim C10: concrete documents whose containers exist but
whose elements are all below the length filter give wordCount 1 and
readingTime 1 for all three adapters. -/
theorem claim_C10_witness :
    (WikipediaAdapter.extract witWikiDocEmpty).map AdapterResult.wordCount = some 1 ∧
    (RedditAdapter.extract witRedditDocEmpty).wordCount = 1 ∧
    (SubstackAdapter.extract witSubDocEmpty).map AdapterResult.readingTime = some 1 :=
  ⟨(claim_C10.1 witWikiDocEmpty rfl (by decide)).2.1,
    (claim_C10.2.1 witRedditDocEmpty (by decide) (by decide)).2.1,
    (claim_C10.2.2 witSubDocEmpty rfl (by decide)).2.2⟩

theorem mem_insertByPrio (x b : Adapters.Adapter) (l : List Adapters.Adapter) :
    b ∈ Adapters.insertByPrio x l ↔ b = x ∨ b ∈ l := by
  induction l with
  | nil => simp [Adapters.insertByPrio]
  | cons y ys ih =>
      by_cases hc : Adapters.prio y ≤ Adapters.prio x
      · simp [Adapters.insertByPrio, hc]
      · simp [Adapters.insertByPrio, hc, ih]
        tauto

theorem insertByPrio_of_le (x : Adapters.Adapter) (m : List Adapters.Adapter)
    (h : ∀ b ∈ m, Adapters.prio b ≤ Adapters.prio x) :
    Adapters.insertByPrio x m = x :: m := by
  cases m with
  | nil => rfl
  | cons y ys =>
      have hy : Adapters.prio y ≤ Adapters.prio x := h y (by simp)
      simp [Adapters.insertByPrio, hy]

theorem sortedD_insert (x : Adapters.Adapter) (l : List Adapters.Adapter)
    (h : l.Pairwise (fun a b => Adapters.prio b ≤ Adapters.prio a)) :
    (Adapters.insertByPrio x l).Pairwise
      (fun a b => Adapters.prio b ≤ Adapters.prio a) := by
  induction l with
  | nil => simp [Adapters.insertByPrio]
  | cons y ys ih =>
      rcases List.pairwise_cons.1 h with ⟨hy, hys⟩
      by_cases hc : Adapters.prio y ≤ Adapters.prio x
      · simp only [Adapters.insertByPrio, if_pos hc]
        refine List.pairwise_cons.2 ⟨?_, h⟩
        intro b hb
        rcases List.mem_cons.1 hb with rfl | hb
        · exact hc
        · exact le_trans (hy b hb) hc
      · simp only [Adapters.insertByPrio, if_neg hc]
        refine List.pairwise_cons.2 ⟨?_, ih hys⟩
        intro b hb
        rcases (mem_insertByPrio x b ys).1 hb with rfl | hb
        · omega
        · exact hy b hb

theorem sortByPrioDesc_cons (x : Adapters.Adapter) (l : List Adapters.Adapter) :
    Adapters.sortByPrioDesc (x :: l) =
      Adapters.insertByPrio x (Adapters.sortByPrioDesc l) := rfl

theorem sortedD_sort (l : List Adapters.Adapter) :
    (Adapters.sortByPrioDesc l).Pairwise
      (fun a b => Adapters.prio b ≤ Adapters.prio a) := by
  induction l with
  | nil => simp [Adapters.sortByPrioDesc]
  | cons x l ih =>
      rw [sortByPrioDesc_cons]
      exact sortedD_insert x _ ih

theorem filter_insertByPrio (p : Adapters.Adapter → Bool) (x : Adapters.Adapter)
    (l : List Adapters.Adapter)
    (hs : l.Pairwise (fun a b => Adapters.prio b ≤ Adapters.prio a)) :
    (Adapters.insertByPrio x l).filter p =
      if p x then Adapters.insertByPrio x (l.filter p) else l.filter p := by
  induction l with
  | nil =>
      by_cases hp : p x <;> simp [Adapters.insertByPrio, hp]
  | cons y ys ih =>
      rcases List.pairwise_cons.1 hs with ⟨hy, hys⟩
      by_cases hc : Adapters.prio y ≤ Adapters.prio x
      · simp only [Adapters.insertByPrio, if_pos hc]
        by_cases hp : p x
        · rw [if_pos hp]
          have hall : ∀ b ∈ (y :: ys).filter p,
              Adapters.prio b ≤ Adapters.prio x := by
            intro b hb
            have hbmem := (List.mem_filter.1 hb).1
            rcases List.mem_cons.1 hbmem with rfl | hb2
            · exact hc
            · exact le_trans (hy b hb2) hc
          rw [insertByPrio_of_le x _ hall]
          rw [List.filter_cons_of_pos hp]
        · rw [if_neg hp]
          rw [List.filter_cons_of_neg hp]
      · simp only [Adapters.insertByPrio, if_neg hc]
        by_cases hpy : p y
        · rw [List.filter_cons_of_pos hpy, List.filter_cons_of_pos hpy, ih hys]
          by_cases hp : p x
          · rw [if_pos hp, if_pos hp]
            simp [Adapters.insertByPrio, hc]
          · rw [if_neg hp, if_neg hp]
        · rw [List.filter_cons_of_neg hpy, List.filter_cons_of_neg hpy, ih hys]

theorem filter_sortByPrioDesc (p : Adapters.Adapter → Bool)
    (l : List Adapters.Adapter) :
    (Adapters.sortByPrioDesc l).filter p =
      Adapters.sortByPrioDesc (l.filter p) := by
  induction l with
  | nil => rfl
  | cons x l ih =>
      rw [sortByPrioDesc_cons, filter_insertByPrio p x _ (sortedD_sort l), ih]
      by_cases hp : p x
      · rw [if_pos hp, List.filter_cons_of_pos hp, sortByPrioDesc_cons]
      · rw [if_neg hp, List.filter_cons_of_neg hp]

theorem find?_eq_head?_filter (p : Adapters.Adapter → Bool)
    (l : List Adapters.Adapter) :
    l.find? p = (l.filter p).head? := by
  induction l with
  | nil => rfl
  | cons x l ih =>
      by_cases hp : p x
      · rw [List.find?_cons_of_pos _ hp, List.filter_cons_of_pos hp]
        rfl
      · rw [List.find?_cons_of_neg _ hp, List.filter_cons_of_neg hp, ih]

theorem insertByPrio_ne_nil (x : Adapters.Adapter) (l : List Adapters.Adapter) :
    Adapters.insertByPrio x l ≠ [] := by
  cases l with
  | nil => simp [Adapters.insertByPrio]
  | cons y ys =>
      by_cases hc : Adapters.prio y ≤ Adapters.prio x <;>
        simp [Adapters.insertByPrio, hc]

theorem sortByPrioDesc_eq_nil (l : List Adapters.Adapter)
    (h : Adapters.sortByPrioDesc l = []) : l = [] := by
  cases l with
  | nil => rfl
  | cons x l =>
      rw [sortByPrioDesc_cons] at h
      exact absurd h (insertByPrio_ne_nil x _)

theorem firstMaxBy_eq_none (m : List Adapters.Adapter) :
    Adapters.firstMaxBy m = none ↔ m = [] := by
  cases m with
  | nil => simp [Adapters.firstMaxBy]
  | cons x m =>
      simp only [Adapters.firstMaxBy]
      cases Adapters.firstMaxBy m with
      | none => simp
      | some y =>
          by_cases hp : Adapters.prio x < Adapters.prio y <;> simp [hp]

theorem head?_sort_eq_firstMaxBy (m : List Adapters.Adapter) :
    (Adapters.sortByPrioDesc m).head? = Adapters.firstMaxBy m := by
  induction m with
  | nil => rfl
  | cons x m ih =>
      rw [sortByPrioDesc_cons]
      cases hs : Adapters.sortByPrioDesc m with
      | nil =>
          have hm : m = [] := sortByPrioDesc_eq_nil m hs
          subst hm
          rfl
      | cons y ys =>
          rw [hs] at ih
          simp only [List.head?] at ih
          simp only [Adapters.firstMaxBy, ← ih]
          by_cases hc : Adapters.prio y ≤ Adapters.prio x
          · have hnc : ¬ Adapters.prio x < Adapters.prio y := by omega
            simp [Adapters.insertByPrio, hc, hnc]
          · have hc2 : Adapters.prio x < Adapters.prio y := by omega
            simp [Adapters.insertByPrio, hc, hc2]

theorem getSiteAdapter_eq_firstMaxBy (l : List Adapters.Adapter) (url : String) :
    Adapters.getSiteAdapter l url =
      Adapters.firstMaxBy (l.filter (fun a => Adapters.matchesUrl a url)) := by
  unfold Adapters.getSiteAdapter
  rw [find?_eq_head?_filter, filter_sortByPrioDesc, head?_sort_eq_firstMaxBy]

theorem firstMaxBy_decomp (m : List Adapters.Adapter) (a : Adapters.Adapter)
    (h : Adapters.firstMaxBy m = some a) :
    ∃ m1 m2, m = m1 ++ a :: m2 ∧
      (∀ b ∈ m1, Adapters.prio b < Adapters.prio a) ∧
      (∀ b ∈ m2, Adapters.prio b ≤ Adapters.prio a) := by
  induction m generalizing a with
  | nil => simp [Adapters.firstMaxBy] at h
  | cons x m ih =>
      simp only [Adapters.firstMaxBy] at h
      cases hm : Adapters.firstMaxBy m with
      | none =>
          have hm2 : m = [] := (firstMaxBy_eq_none m).1 hm
          subst hm2
          rw [hm] at h
          have h2 : some x = some a := h
          have hxa : x = a := by simpa using h2
          subst hxa
          exact ⟨[], [], rfl, by simp, by simp⟩
      | some y =>
          rw [hm] at h
          have h2 : (if Adapters.prio x < Adapters.prio y then some y
              else some x) = some a := h
          by_cases hp : Adapters.prio x < Adapters.prio y
          · rw [if_pos hp] at h2
            have hya : y = a := by simpa using h2
            subst hya
            rcases ih y hm with ⟨m1, m2, hdec, hm1, hm2⟩
            refine ⟨x :: m1, m2, by simp [hdec], ?_, hm2⟩
            intro b hb
            rcases List.mem_cons.1 hb with rfl | hb
            · exact hp
            · exact hm1 b hb
          · rw [if_neg hp] at h2
            have hxa : x = a := by simpa using h2
            subst hxa
            rcases ih y hm with ⟨m1, m2, hdec, hm1, hm2⟩
            refine ⟨[], m, by simp, by simp, ?_⟩
            intro b hb
            rw [hdec] at hb
            rcases List.mem_append.1 hb with hb | hb
            · have := hm1 b hb
              omega
            · rcases List.mem_cons.1 hb with rfl | hb
              · omega
              · have := hm2 b hb
                omega

theorem firstMaxBy_isSome (m : List Adapters.Adapter) (h : m ≠ []) :
    (Adapters.firstMaxBy m).isSome = true := by
  cases hm : Adapters.firstMaxBy m with
  | none => exact absurd ((firstMaxBy_eq_none m).1 hm) h
  | some a => rfl

theorem registerAdapter_mem_decomp (l : List Adapters.Adapter)
    (a : Adapters.Adapter) (h : a.name ∈ Adapters.names l) :
    ∃ l1 b l2, l = l1 ++ b :: l2 ∧ b.name = a.name ∧
      a.name ∉ Adapters.names l1 ∧
      Adapters.registerAdapter l a = l1 ++ a :: l2 := by
  induction l with
  | nil => simp [Adapters.names] at h
  | cons b rest ih =>
      by_cases hn : b.name = a.name
      · exact ⟨[], b, rest, rfl, hn, by simp [Adapters.names],
          by simp [Adapters.registerAdapter, hn]⟩
      · have h2 : a.name ∈ Adapters.names rest := by
          simpa [Adapters.names, Ne.symm hn] using h
        rcases ih h2 with ⟨l1, c, l2, hdec, hc, hnot, hreg⟩
        refine ⟨b :: l1, c, l2, by simp [hdec], hc, ?_, ?_⟩
        · intro hmem
          simp only [Adapters.names, List.map_cons, List.mem_cons] at hmem
          rcases hmem with he | hmem
          · exact hn he.symm
          · exact hnot hmem
        · simp [Adapters.registerAdapter, hn, hreg]

theorem registerAdapter_names_mem (l : List Adapters.Adapter)
    (a : Adapters.Adapter) (h : a.name ∈ Adapters.names l) :
    Adapters.names (Adapters.registerAdapter l a) = Adapters.names l := by
  induction l with
  | nil => simp [Adapters.names] at h
  | cons b rest ih =>
      by_cases hn : b.name = a.name
      · simp [Adapters.registerAdapter, Adapters.names, hn]
      · have h2 : a.name ∈ Adapters.names rest := by
          simpa [Adapters.names, Ne.symm hn] using h
        have ih2 := ih h2
        simp only [Adapters.names] at ih2
        simp only [Adapters.registerAdapter, if_neg hn, Adapters.names,
          List.map_cons]
        rw [ih2]

theorem registerAdapter_not_mem (l : List Adapters.Adapter)
    (a : Adapters.Adapter) (h : a.name ∉ Adapters.names l) :
    Adapters.registerAdapter l a = l ++ [a] := by
  induction l with
  | nil => rfl
  | cons b rest ih =>
      have hn : ¬ b.name = a.name := by
        intro he
        refine h ?_
        rw [← he]
        exact List.mem_cons_self _ _
      have h2 : a.name ∉ Adapters.names rest :=
        fun he => h (List.mem_cons_of_mem _ he)
      simp [Adapters.registerAdapter, hn, ih h2]

theorem registerAdapter_nodup (l : List Adapters.Adapter) (a : Adapters.Adapter)
    (h : (Adapters.names l).Nodup) :
    (Adapters.names (Adapters.registerAdapter l a)).Nodup := by
  by_cases hm : a.name ∈ Adapters.names l
  · rw [registerAdapter_names_mem l a hm]
    exact h
  · rw [registerAdapter_not_mem l a hm]
    simp only [Adapters.names, List.map_append, List.map_cons, List.map_nil]
    rw [List.nodup_append]
    refine ⟨h, by simp, ?_⟩
    intro x hx hxmem
    simp at hxmem
    subst hxmem
    exact hm hx

/-- Claim C3: dispatch equals the first adapter of maximal priority among
the matching ones in registration order (the stable descending sort followed
by first-match), so it returns a matching adapter with the highest priority,
with ties resolved in favour of the earlier-registered adapter; and
registering an adapter whose name exists replaces that entry in place, so
the registry keeps its name sequence and never acquires a duplicate name. -/
theorem claim_C3 :
    (∀ l url, Adapters.getSiteAdapter l url =
        Adapters.firstMaxBy (l.filter (fun a => Adapters.matchesUrl a url))) ∧
    (∀ l url, (∃ a ∈ l, Adapters.matchesUrl a url = true) →
        (Adapters.getSiteAdapter l url).isSome = true) ∧
    (∀ m a, Adapters.firstMaxBy m = some a →
        ∃ m1 m2, m = m1 ++ a :: m2 ∧
          (∀ b ∈ m1, Adapters.prio b < Adapters.prio a) ∧
          (∀ b ∈ m2, Adapters.prio b ≤ Adapters.prio a)) ∧
    (∀ l a, a.name ∈ Adapters.names l →
        ∃ l1 b l2, l = l1 ++ b :: l2 ∧ b.name = a.name ∧
          a.name ∉ Adapters.names l1 ∧
          Adapters.registerAdapter l a = l1 ++ a :: l2) ∧
    (∀ l a, a.name ∈ Adapters.names l →
        Adapters.names (Adapters.registerAdapter l a) = Adapters.names l) ∧
    (∀ l a, a.name ∉ Adapters.names l →
        Adapters.registerAdapter l a = l ++ [a]) ∧
    (∀ l a, (Adapters.names l).Nodup →
        (Adapters.names (Adapters.registerAdapter l a)).Nodup) := by
  refine ⟨getSiteAdapter_eq_firstMaxBy, ?_, firstMaxBy_decomp,
    registerAdapter_mem_decomp, registerAdapter_names_mem,
    registerAdapter_not_mem, registerAdapter_nodup⟩
  intro l url h
  rw [getSiteAdapter_eq_firstMaxBy]
  apply firstMaxBy_isSome
  rcases h with ⟨a, ha, hmatch⟩
  intro hnil
  have : a ∈ l.filter (fun a => Adapters.matchesUrl a url) :=
    List.mem_filter.2 ⟨ha, hmatch⟩
  rw [hnil] at this
  simp at this

/-- Witness for claim C3 at concrete adapters with priorities 5 and 10 that
both match the same url: dispatch succeeds, and re-registering the name low
keeps the registry name sequence unchanged while registering a fresh name
appends. -/
theorem claim_C3_witness :
    (Adapters.getSiteAdapter [witAdapterLow, witAdapterHigh]
        "https://example.com").isSome = true ∧
    Adapters.names (Adapters.registerAdapter [witAdapterLow, witAdapterHigh]
        witAdapterLowReplacement) = ["low", "high"] ∧
    Adapters.registerAdapter [witAdapterHigh] witAdapterLow =
      [witAdapterHigh, witAdapterLow] := by
  refine ⟨?_, ?_, ?_⟩
  · exact claim_C3.2.1 [witAdapterLow, witAdapterHigh] "https://example.com"
      ⟨witAdapterHigh, by simp, rfl⟩
  · have h := claim_C3.2.2.2.2.1 [witAdapterLow, witAdapterHigh]
      witAdapterLowReplacement (by simp [Adapters.names, witAdapterLow,
        witAdapterHigh, witAdapterLowReplacement])
    rw [h]
    simp [Adapters.names, witAdapterLow, witAdapterHigh]
  · exact claim_C3.2.2.2.2.2.1 [witAdapterHigh] witAdapterLow
      (by simp [Adapters.names, witAdapterLow, witAdapterHigh])

theorem string_length_eq_zero_iff (s : String) : s.length = 0 ↔ s = "" := by
  cases s with
  | mk data =>
      constructor
      · intro h
        have : data = [] := by
          simpa [String.length] using h
        subst this
        rfl
      · intro h
        rw [h]
        rfl

/-- Claim C6: validateContent is a pure rule check: valid holds exactly when
the error list is empty; each of the four rules contributes its one error
string exactly when violated; the error count equals the number of violated
rules; and on the scenario record (empty title, no paragraphs, wordCount 10,
quality 0.2) the errors include Missing title and No paragraphs extracted. -/
theorem claim_C6 :
    (∀ c, ((ContentExtractorService.validateContent c).valid = true ↔
        (ContentExtractorService.validateContent c).errors = [])) ∧
    (∀ c, ("Missing title" ∈ (ContentExtractorService.validateContent c).errors ↔
        c.title = "")) ∧
    (∀ c, ("No paragraphs extracted" ∈
          (ContentExtractorService.validateContent c).errors ↔
        c.paragraphs = [])) ∧
    (∀ c, ("Content too short (less than 50 words)" ∈
          (ContentExtractorService.validateContent c).errors ↔
        c.wordCount < 50)) ∧
    (∀ c, ("Content quality too low" ∈
          (ContentExtractorService.validateContent c).errors ↔
        c.quality.score < (3 : Rat) / 10)) ∧
    (∀ c, (ContentExtractorService.validateContent c).errors.length =
        (if c.title = "" then 1 else 0) + (if c.paragraphs = [] then 1 else 0) +
        (if c.wordCount < 50 then 1 else 0) +
        (if c.quality.score < (3 : Rat) / 10 then 1 else 0)) ∧
    ("Missing title" ∈
        (ContentExtractorService.validateContent sampleInvalidContent).errors ∧
      "No paragraphs extracted" ∈
        (ContentExtractorService.validateContent sampleInvalidContent).errors ∧
      (ContentExtractorService.validateContent sampleInvalidContent).valid = false) := by
  refine ⟨?_, ?_, ?_, ?_, ?_, ?_, ?_⟩
  · intro c
    by_cases h1 : c.title.length = 0 <;> by_cases h2 : c.paragraphs.length = 0 <;>
      by_cases h3 : c.wordCount < 50 <;>
      by_cases h4 : c.quality.score < (3 : Rat) / 10 <;>
      simp [ContentExtractorService.validateContent, h1, h2, h3, h4]
  · intro c
    by_cases h1 : c.title.length = 0 <;> by_cases h2 : c.paragraphs.length = 0 <;>
      by_cases h3 : c.wordCount < 50 <;>
      by_cases h4 : c.quality.score < (3 : Rat) / 10 <;>
      simp [ContentExtractorService.validateContent, h1, h2, h3, h4,
        ← string_length_eq_zero_iff]
  · intro c
    by_cases h1 : c.title.length = 0 <;> by_cases h2 : c.paragraphs.length = 0 <;>
      by_cases h3 : c.wordCount < 50 <;>
      by_cases h4 : c.quality.score < (3 : Rat) / 10 <;>
      simp [ContentExtractorService.validateContent, h1, h2, h3, h4,
        ← List.length_eq_zero]
  · intro c
    by_cases h1 : c.title.length = 0 <;> by_cases h2 : c.paragraphs.length = 0 <;>
      by_cases h3 : c.wordCount < 50 <;>
      by_cases h4 : c.quality.score < (3 : Rat) / 10 <;>
      simp [ContentExtractorService.validateContent, h1, h2, h3, h4]
  · intro c
    by_cases h1 : c.title.length = 0 <;> by_cases h2 : c.paragraphs.length = 0 <;>
      by_cases h3 : c.wordCount < 50 <;>
      by_cases h4 : c.quality.score < (3 : Rat) / 10 <;>
      simp [ContentExtractorService.validateContent, h1, h2, h3, h4]
  · intro c
    by_cases h1 : c.title.length = 0 <;> by_cases h2 : c.paragraphs.length = 0 <;>
      by_cases h3 : c.wordCount < 50 <;>
      by_cases h4 : c.quality.score < (3 : Rat) / 10 <;>
      simp [ContentExtractorService.validateContent, h1, h2, h3, h4,
        ← string_length_eq_zero_iff, ← List.length_eq_zero]
  · refine ⟨by decide, by decide, by decide⟩

/-- Claim C8 counterexample: the JSON round trip is not the identity on a
content value whose extractedAt is a Date: the Date comes back as its ISO
string. -/
theorem claim_C8_counterexample :
    ContentExtractorService.jsonRoundTrip ContentExtractorService.dateToISOString
        cexContent8 ≠ cexContent8 ∧
    (ContentExtractorService.jsonRoundTrip ContentExtractorService.dateToISOString
        cexContent8).metadata.extractedAt =
      ContentExtractorService.DVal.str "1970-01-01T00:00:00.000Z" ∧
    cexContent8.metadata.extractedAt = ContentExtractorService.DVal.date 0 := by
  refine ⟨by decide, by decide, rfl⟩

/-- Claim C8 as amended: the JSON round trip preserves every field except
the Date-valued metadata fields, which are deserialized as ISO strings; it
is the identity precisely when the metadata holds no Date value, and in
particular it differs from the input whenever extractedAt is a Date. -/
theorem claim_C8 :
    (∀ (iso : Int → String) (c : ContentExtractorService.ExtractedContent),
        (ContentExtractorService.jsonRoundTrip iso c).title = c.title ∧
        (ContentExtractorService.jsonRoundTrip iso c).paragraphs = c.paragraphs ∧
        (ContentExtractorService.jsonRoundTrip iso c).cleanText = c.cleanText ∧
        (ContentExtractorService.jsonRoundTrip iso c).readingTime = c.readingTime ∧
        (ContentExtractorService.jsonRoundTrip iso c).wordCount = c.wordCount ∧
        (ContentExtractorService.jsonRoundTrip iso c).language = c.language ∧
        (ContentExtractorService.jsonRoundTrip iso c).quality = c.quality ∧
        (ContentExtractorService.jsonRoundTrip iso c).fingerprint = c.fingerprint ∧
        (ContentExtractorService.jsonRoundTrip iso c).metadata.author =
          c.metadata.author ∧
        (ContentExtractorService.jsonRoundTrip iso c).metadata.tags =
          c.metadata.tags ∧
        (ContentExtractorService.jsonRoundTrip iso c).metadata.source =
          c.metadata.source ∧
        (ContentExtractorService.jsonRoundTrip iso c).metadata.extractedAt =
          ContentExtractorService.roundDVal iso c.metadata.extractedAt ∧
        (ContentExtractorService.jsonRoundTrip iso c).metadata.publishDate =
          c.metadata.publishDate.map (ContentExtractorService.roundDVal iso) ∧
        (ContentExtractorService.jsonRoundTrip iso c).metadata.updateDate =
          c.metadata.updateDate.map (ContentExtractorService.roundDVal iso)) ∧
    (∀ (iso : Int → String) (c : ContentExtractorService.ExtractedContent),
        ContentExtractorService.jsonRoundTrip iso c = c ↔
          (ContentExtractorService.roundDVal iso c.metadata.extractedAt =
              c.metadata.extractedAt ∧
            c.metadata.publishDate.map (ContentExtractorService.roundDVal iso) =
              c.metadata.publishDate ∧
            c.metadata.updateDate.map (ContentExtractorService.roundDVal iso) =
              c.metadata.updateDate)) ∧
    (∀ (iso : Int → String) (c : ContentExtractorService.ExtractedContent) ms,
        c.metadata.extractedAt = ContentExtractorService.DVal.date ms →
        ContentExtractorService.jsonRoundTrip iso c ≠ c) := by
  refine ⟨?_, ?_, ?_⟩
  · intro iso c
    exact ⟨rfl, rfl, rfl, rfl, rfl, rfl, rfl, rfl, rfl, rfl, rfl, rfl, rfl, rfl⟩
  · intro iso c
    cases c with
    | mk t p ct md rt wc lang q fp =>
        cases md with
        | mk au pd ud tg srcv ea =>
            simp [ContentExtractorService.jsonRoundTrip,
              ContentExtractorService.jsonRoundTripMetadata]
            tauto
  · intro iso c ms hms h
    have h1 := congrArg
      (fun x : ContentExtractorService.ExtractedContent => x.metadata.extractedAt) h
    simp [ContentExtractorService.jsonRoundTrip,
      ContentExtractorService.jsonRoundTripMetadata] at h1
    rw [hms] at h1
    simp [ContentExtractorService.roundDVal] at h1

/-- Witness for claim C8: the round trip applied to a concrete dated content
is not the identity (the hypothesis of the last conjunct discharged at
extractedAt = Date 0). -/
theorem claim_C8_witness :
    ContentExtractorService.jsonRoundTrip ContentExtractorService.dateToISOString
      witContent8 ≠ witContent8 :=
  claim_C8.2.2 ContentExtractorService.dateToISOString witContent8 0 rfl

theorem extract_total (env : ContentExtractorService.SvcEnv) (now : Int)
    (url : String) (opts : Option String) (st : ContentExtractorService.SvcState) :
    ∃ r st2, ContentExtractorService.extract env now url opts st =
      (Except.ok r, st2) := by
  rcases h : ContentExtractorService.extractInner env now url opts st with ⟨res, st1⟩
  cases res with
  | ok c =>
      exact ⟨ContentExtractorService.ExtractionResult.success c, st1,
        by simp [ContentExtractorService.extract, h]⟩
  | error e =>
      exact ⟨ContentExtractorService.ExtractionResult.failure e, st1,
        by simp [ContentExtractorService.extract, h]⟩

theorem extract_rate_limited (env : ContentExtractorService.SvcEnv) (now : Int)
    (url : String) (opts : Option String) (st : ContentExtractorService.SvcState)
    (d : String) (hdom : env.parseHostname url = Except.ok d)
    (hlim : (checkLimit defaultRateLimiter now d st.limiter).1 = false) :
    (ContentExtractorService.extract env now url opts st).1 =
      Except.ok (ContentExtractorService.ExtractionResult.failure
        (ContentExtractorService.rateLimitMessage d)) := by
  rcases hchk : checkLimit defaultRateLimiter now d st.limiter with ⟨b, lim2⟩
  have hb : b = false := by
    rw [hchk] at hlim
    exact hlim
  subst hb
  simp [ContentExtractorService.extract, ContentExtractorService.extractInner,
    hdom, hchk]

theorem extract_fetch_error (env : ContentExtractorService.SvcEnv) (now : Int)
    (url : String) (opts : Option String) (st : ContentExtractorService.SvcState)
    (d e : String) (hdom : env.parseHostname url = Except.ok d)
    (hlim : (checkLimit defaultRateLimiter now d st.limiter).1 = true)
    (hen : env.cacheOptions.enabled = false)
    (hfetch : env.fetchResult url = Except.error e) :
    (ContentExtractorService.extract env now url opts st).1 =
      Except.ok (ContentExtractorService.ExtractionResult.failure e) := by
  rcases hchk : checkLimit defaultRateLimiter now d st.limiter with ⟨b, lim2⟩
  have hb : b = true := by
    rw [hchk] at hlim
    exact hlim
  subst hb
  simp [ContentExtractorService.extract, ContentExtractorService.extractInner,
    hdom, hchk, ContentExtractorService.extractCore, hen,
    ContentExtractorService.extractCoreFetch, hfetch]

theorem extract_plugin_error_caught (env : ContentExtractorService.SvcEnv)
    (now : Int) (url : String) (opts : Option String)
    (st : ContentExtractorService.SvcState) (d html he : String)
    (hdom : env.parseHostname url = Except.ok d)
    (hlim : (checkLimit defaultRateLimiter now d st.limiter).1 = true)
    (hen : env.cacheOptions.enabled = false)
    (hfetch : env.fetchResult url = Except.ok html)
    (hhook : ContentExtractorService.runHooks env.beforeHooks (env.parse html) =
      Except.error he) :
    (ContentExtractorService.extract env now url opts st).1 =
      Except.ok (ContentExtractorService.ExtractionResult.failure he) := by
  rcases hchk : checkLimit defaultRateLimiter now d st.limiter with ⟨b, lim2⟩
  have hb : b = true := by
    rw [hchk] at hlim
    exact hlim
  subst hb
  simp [ContentExtractorService.extract, ContentExtractorService.extractInner,
    hdom, hchk, ContentExtractorService.extractCore, hen,
    ContentExtractorService.extractCoreFetch, hfetch, hhook]

/-- Claim C7 counterexample: the claim states that an unhandled plugin hook
failure propagates out of extract.  With a beforeExtract hook that throws,
extract still returns a tagged failure result (the catch block at the top of
extract converts every thrown error, plugin hooks included); nothing
escapes. -/
theorem claim_C7_counterexample :
    ContentExtractorService.extract cexEnv7 0 "https://example.com/a" none
        ContentExtractorService.initSvcState =
      (Except.ok (ContentExtractorService.ExtractionResult.failure "plugin boom"),
        { ContentExtractorService.initSvcState with
            limiter := [("example.com", [0])],
            cacheMisses := 1,
            fetchCount := 1 }) := rfl

/-- Claim C7 as amended: extract never lets an exception escape: every
execution returns ok with a tagged result, and each failure mode, the
rate-limit rejection, a fetch error, and an unhandled plugin-hook error
alike, surfaces as a tagged failure result of extract. -/
theorem claim_C7 :
    (∀ env now url opts st, ∃ r st2,
        ContentExtractorService.extract env now url opts st = (Except.ok r, st2)) ∧
    (∀ env now url opts st d, env.parseHostname url = Except.ok d →
        (checkLimit defaultRateLimiter now d st.limiter).1 = false →
        (ContentExtractorService.extract env now url opts st).1 =
          Except.ok (ContentExtractorService.ExtractionResult.failure
            (ContentExtractorService.rateLimitMessage d))) ∧
    (∀ env now url opts st d e, env.parseHostname url = Except.ok d →
        (checkLimit defaultRateLimiter now d st.limiter).1 = true →
        env.cacheOptions.enabled = false →
        env.fetchResult url = Except.error e →
        (ContentExtractorService.extract env now url opts st).1 =
          Except.ok (ContentExtractorService.ExtractionResult.failure e)) ∧
    (∀ env now url opts st d html he, env.parseHostname url = Except.ok d →
        (checkLimit defaultRateLimiter now d st.limiter).1 = true →
        env.cacheOptions.enabled = false →
        env.fetchResult url = Except.ok html →
        ContentExtractorService.runHooks env.beforeHooks (env.parse html) =
          Except.error he →
        (ContentExtractorService.extract env now url opts st).1 =
          Except.ok (ContentExtractorService.ExtractionResult.failure he)) :=
  ⟨extract_total,
    fun env now url opts st d => extract_rate_limited env now url opts st d,
    fun env now url opts st d e => extract_fetch_error env now url opts st d e,
    fun env now url opts st d html he =>
      extract_plugin_error_caught env now url opts st d html he⟩

/-- Witness for the amended claim C7: a concrete exhausted limiter yields
the tagged rate-limit failure, and a concrete fetch failure yields the
tagged network failure. -/
theorem claim_C7_witness :
    (ContentExtractorService.extract witEnv7fetch 0 "https://example.com/a" none
        witExhaustedState).1 =
      Except.ok (ContentExtractorService.ExtractionResult.failure
        (ContentExtractorService.rateLimitMessage "example.com")) ∧
    (ContentExtractorService.extract witEnv7fetch 0 "https://example.com/a" none
        ContentExtractorService.initSvcState).1 =
      Except.ok (ContentExtractorService.ExtractionResult.failure "ECONNREFUSED") := by
  constructor
  · exact claim_C7.2.1 witEnv7fetch 0 "https://example.com/a" none
      witExhaustedState "example.com" rfl (by decide)
  · exact claim_C7.2.2.1 witEnv7fetch 0 "https://example.com/a" none
      ContentExtractorService.initSvcState "example.com" "ECONNREFUSED" rfl
      (by decide) rfl rfl

theorem lookupCache_setCache_self (st : ContentExtractorService.CacheState)
    (key : String) (v : ContentExtractorService.CacheEntry) :
    ContentExtractorService.lookupCache
      (ContentExtractorService.setCache st key v) key = some v := by
  induction st with
  | nil => simp [ContentExtractorService.setCache, ContentExtractorService.lookupCache]
  | cons e rest ih =>
      by_cases h : e.1 = key
      · simp [ContentExtractorService.setCache, ContentExtractorService.lookupCache, h]
      · simp [ContentExtractorService.setCache, ContentExtractorService.lookupCache, h, ih]

theorem getFromCache_hit_iff (env : ContentExtractorService.SvcEnv) (now : Int)
    (url : String) (opts : Option String) (st : ContentExtractorService.SvcState)
    (c : ContentExtractorService.ExtractedContent)
    (hpers : env.cacheOptions.persistent = false) :
    ((ContentExtractorService.getFromCache env now url opts st).1 = some c ↔
      ∃ e, ContentExtractorService.lookupCache st.cache
          (ContentExtractorService.getCacheKey env url opts) = some e ∧
        now - e.timestamp < env.cacheOptions.ttl ∧ e.content = c) := by
  unfold ContentExtractorService.getFromCache ContentExtractorService.getFromPersistent
  cases hl : ContentExtractorService.lookupCache st.cache
      (ContentExtractorService.getCacheKey env url opts) with
  | none => simp [hpers, hl]
  | some e =>
      by_cases hage : now - e.timestamp < env.cacheOptions.ttl
      · simp [hpers, hl, hage, eq_comm]
      · simp [hpers, hl, hage]

theorem getFromCache_frame (env : ContentExtractorService.SvcEnv) (now : Int)
    (url : String) (opts : Option String) (st : ContentExtractorService.SvcState)
    (hpers : env.cacheOptions.persistent = false) :
    (ContentExtractorService.getFromCache env now url opts st).2 = st := by
  unfold ContentExtractorService.getFromCache ContentExtractorService.getFromPersistent
  cases hl : ContentExtractorService.lookupCache st.cache
      (ContentExtractorService.getCacheKey env url opts) with
  | none => simp [hpers, hl]
  | some e =>
      by_cases hage : now - e.timestamp < env.cacheOptions.ttl <;>
        simp [hpers, hl, hage]

theorem extract_two_calls (env : ContentExtractorService.SvcEnv) (t0 t1 : Int)
    (url : String) (opts : Option String) (st : ContentExtractorService.SvcState)
    (d html : String) (doc2 : ContentExtractorService.Doc)
    (c0 c1 : ContentExtractorService.ExtractedContent)
    (hen : env.cacheOptions.enabled = true)
    (hpers : env.cacheOptions.persistent = false)
    (hdom : env.parseHostname url = Except.ok d)
    (hlim : lookupTimes st.limiter d = [])
    (hmiss : ContentExtractorService.lookupCache st.cache
      (ContentExtractorService.getCacheKey env url opts) = none)
    (hfetch : env.fetchResult url = Except.ok html)
    (hbefore : ContentExtractorService.runHooks env.beforeHooks (env.parse html) =
      Except.ok doc2)
    (hext : env.extractEnhanced doc2 url opts = Except.ok c0)
    (hafter : ContentExtractorService.runHooks env.afterHooks c0 = Except.ok c1)
    (httl : t1 - t0 < env.cacheOptions.ttl) :
    (ContentExtractorService.extract env t0 url opts st).1 =
      Except.ok (ContentExtractorService.ExtractionResult.success
        (ContentExtractorService.setFingerprint env c1)) ∧
    (ContentExtractorService.extract env t0 url opts st).2.fetchCount =
      st.fetchCount + 1 ∧
    (ContentExtractorService.extract env t1 url opts
        ((ContentExtractorService.extract env t0 url opts st).2)).1 =
      Except.ok (ContentExtractorService.ExtractionResult.success
        (ContentExtractorService.setFingerprint env c1)) ∧
    (ContentExtractorService.extract env t1 url opts
        ((ContentExtractorService.extract env t0 url opts st).2)).2.fetchCount =
      st.fetchCount + 1 := by
  have hchk1 : checkLimit defaultRateLimiter t0 d st.limiter =
      (true, setTimes st.limiter d [t0]) := by
    simp [checkLimit, validRequests, hlim, defaultRateLimiter]
  have h1 : ContentExtractorService.extract env t0 url opts st =
      (Except.ok (ContentExtractorService.ExtractionResult.success
          (ContentExtractorService.setFingerprint env c1)),
        { st with
            limiter := setTimes st.limiter d [t0],
            cacheMisses := st.cacheMisses + 1,
            fetchCount := st.fetchCount + 1,
            cache := ContentExtractorService.setCache st.cache
              (ContentExtractorService.getCacheKey env url opts)
              ⟨ContentExtractorService.setFingerprint env c1, t0⟩ }) := by
    simp [ContentExtractorService.extract, ContentExtractorService.extractInner,
      hdom, hchk1, ContentExtractorService.extractCore, hen,
      ContentExtractorService.getFromCache, ContentExtractorService.getFromPersistent,
      hmiss, hpers, ContentExtractorService.extractCoreFetch, hfetch, hbefore,
      hext, hafter, ContentExtractorService.saveToCache]
  have hchkLen : (validRequests defaultRateLimiter t1
      (lookupTimes (setTimes st.limiter d [t0]) d)).length <
        defaultRateLimiter.maxRequests := by
    rw [lookupTimes_setTimes_self]
    have hle : (validRequests defaultRateLimiter t1 [t0]).length ≤ 1 := by
      have h := List.length_filter_le
        (fun t => decide (t1 - t < defaultRateLimiter.windowMs)) [t0]
      simpa [validRequests] using h
    have : defaultRateLimiter.maxRequests = 10 := rfl
    omega
  rcases hchk2 : checkLimit defaultRateLimiter t1 d (setTimes st.limiter d [t0])
    with ⟨b2, lim2⟩
  have hb2 : b2 = true := by
    have h := (checkLimit_true_iff defaultRateLimiter t1 d
      (setTimes st.limiter d [t0])).2 hchkLen
    rw [hchk2] at h
    exact h
  subst hb2
  refine ⟨by rw [h1], by rw [h1], ?_, ?_⟩
  · rw [h1]
    simp [ContentExtractorService.extract, ContentExtractorService.extractInner,
      hdom, hchk2, ContentExtractorService.extractCore, hen,
      ContentExtractorService.getFromCache, lookupCache_setCache_self, httl]
  · rw [h1]
    simp [ContentExtractorService.extract, ContentExtractorService.extractInner,
      hdom, hchk2, ContentExtractorService.extractCore, hen,
      ContentExtractorService.getFromCache, lookupCache_setCache_self, httl]

/-- Claim C1: a primary cache entry is treated as a hit exactly when its age
now - timestamp is strictly below ttl (stale at age >= ttl), the read leaves
the state unchanged, and two sequential extract calls with the identical URL
and options, the second within ttl of the first cache write, perform exactly
one network fetch: the first call fetches once and the second is served from
the cache with the same content and no new fetch.  Stated for the default
non-persistent configuration. -/
theorem claim_C1 :
    (∀ env now url opts st c, env.cacheOptions.persistent = false →
        ((ContentExtractorService.getFromCache env now url opts st).1 = some c ↔
          ∃ e, ContentExtractorService.lookupCache st.cache
              (ContentExtractorService.getCacheKey env url opts) = some e ∧
            now - e.timestamp < env.cacheOptions.ttl ∧ e.content = c)) ∧
    (∀ env now url opts st, env.cacheOptions.persistent = false →
        (ContentExtractorService.getFromCache env now url opts st).2 = st) ∧
    (∀ env t0 t1 url opts st d html doc2 c0 c1,
        env.cacheOptions.enabled = true →
        env.cacheOptions.persistent = false →
        env.parseHostname url = Except.ok d →
        lookupTimes st.limiter d = [] →
        ContentExtractorService.lookupCache st.cache
          (ContentExtractorService.getCacheKey env url opts) = none →
        env.fetchResult url = Except.ok html →
        ContentExtractorService.runHooks env.beforeHooks (env.parse html) =
          Except.ok doc2 →
        env.extractEnhanced doc2 url opts = Except.ok c0 →
        ContentExtractorService.runHooks env.afterHooks c0 = Except.ok c1 →
        t1 - t0 < env.cacheOptions.ttl →
        (ContentExtractorService.extract env t0 url opts st).1 =
          Except.ok (ContentExtractorService.ExtractionResult.success
            (ContentExtractorService.setFingerprint env c1)) ∧
        (ContentExtractorService.extract env t0 url opts st).2.fetchCount =
          st.fetchCount + 1 ∧
        (ContentExtractorService.extract env t1 url opts
            ((ContentExtractorService.extract env t0 url opts st).2)).1 =
          Except.ok (ContentExtractorService.ExtractionResult.success
            (ContentExtractorService.setFingerprint env c1)) ∧
        (ContentExtractorService.extract env t1 url opts
            ((ContentExtractorService.extract env t0 url opts st).2)).2.fetchCount =
          st.fetchCount + 1) :=
  ⟨fun env now url opts st c hpers => getFromCache_hit_iff env now url opts st c hpers,
    fun env now url opts st hpers => getFromCache_frame env now url opts st hpers,
    fun env t0 t1 url opts st d html doc2 c0 c1 hen hpers hdom hlim hmiss hfetch
        hbefore hext hafter httl =>
      extract_two_calls env t0 t1 url opts st d html doc2 c0 c1 hen hpers hdom
        hlim hmiss hfetch hbefore hext hafter httl⟩

/-- Witness for claim C1 at a concrete environment: the first call fetches
once and succeeds; the second call 1000 ms later returns the same content
from the cache without fetching again. -/
theorem claim_C1_witness :
    (ContentExtractorService.extract witEnv1 0 "https://example.com/a" none
        ContentExtractorService.initSvcState).1 =
      Except.ok (ContentExtractorService.ExtractionResult.success
        (ContentExtractorService.setFingerprint witEnv1 witContent1)) ∧
    (ContentExtractorService.extract witEnv1 0 "https://example.com/a" none
        ContentExtractorService.initSvcState).2.fetchCount =
      ContentExtractorService.initSvcState.fetchCount + 1 ∧
    (ContentExtractorService.extract witEnv1 1000 "https://example.com/a" none
        ((ContentExtractorService.extract witEnv1 0 "https://example.com/a" none
          ContentExtractorService.initSvcState).2)).1 =
      Except.ok (ContentExtractorService.ExtractionResult.success
        (ContentExtractorService.setFingerprint witEnv1 witContent1)) ∧
    (ContentExtractorService.extract witEnv1 1000 "https://example.com/a" none
        ((ContentExtractorService.extract witEnv1 0 "https://example.com/a" none
          ContentExtractorService.initSvcState).2)).2.fetchCount =
      ContentExtractorService.initSvcState.fetchCount + 1 :=
  claim_C1.2.2 witEnv1 0 1000 "https://example.com/a" none
    ContentExtractorService.initSvcState "example.com" "html" "html" witContent1
    witContent1 rfl rfl rfl rfl rfl rfl rfl rfl rfl (by decide)

end ContentExtractor
